import Mathlib

/-!
Shallow embedding of the Pixora storefront's order/inventory core
(`src/lib/orders.js`, the checkout handler, and the products provider in
`src/App.jsx`), together with proofs checking the natural-language
specification against it.

Modelling conventions:
* A JavaScript string is its list of characters (`JStr`).  `String.prototype`
  operations used by the source (`trim`, `toLowerCase`, `toUpperCase`) are
  embedded as list functions; `Char.toLower`/`Char.toUpper` give the basic
  Latin case mapping, which is what the source's ASCII string constants use.
* A JavaScript number that the code feeds through `Number(x)` is modelled as
  `JNum := Option Jq`: `some q` is a finite value (an exact fraction `Jq`),
  `none` is a value whose `Number` conversion is not finite (`NaN`,
  `±Infinity`, a non-numeric string, `undefined`).  Ideal (exact) arithmetic
  replaces binary floats.
* ISO timestamp strings are abstracted to natural numbers (`Date.getTime`
  order-isomorphically maps valid ISO strings to numbers).
* `crypto.randomUUID()` / `new Date().toISOString()` are environment
  nondeterminism: each operation takes the produced values (`fresh`, `now`)
  as explicit parameters.
* Raw (possibly hand-edited) persisted records are `Raw*` structures whose
  fields are `Option`s; `none` is a missing/nullish field.
-/

namespace Pixora

/-- A JavaScript string, as its list of characters. -/
abbrev JStr := List Char

/-- Characters of a Lean string literal, used to write JS string constants. -/
def str (s : String) : JStr := s.data

/-- A finite JavaScript number, as the exact fraction
`num / (dpred + 1)`.  A fraction (not necessarily reduced) replaces binary
floats with ideal arithmetic while keeping every operation computable by the
kernel; `toRat` below ties it to `ℚ`. -/
structure Jq where
  num : Int
  dpred : Nat
deriving DecidableEq

namespace Jq

/-- The (positive) denominator. -/
def den (q : Jq) : Nat := q.dpred + 1

/-- Embed an integer. -/
def ofInt (n : Int) : Jq := ⟨n, 0⟩

/-- Embed a natural number. -/
def ofNat (n : Nat) : Jq := ⟨n, 0⟩

/-- Exact addition. -/
def add (a b : Jq) : Jq :=
  ⟨a.num * b.den + b.num * a.den, a.dpred * b.dpred + a.dpred + b.dpred⟩

/-- `Math.floor`, as floored integer division. -/
def floor (q : Jq) : Int := q.num.fdiv q.den

/-- `0 ≤ q` (the denominator is positive, so the sign is the numerator's). -/
def nonneg (q : Jq) : Prop := 0 ≤ q.num

instance (q : Jq) : Decidable q.nonneg := by unfold nonneg; infer_instance

/-- The rational value of a `Jq`. -/
def toRat (q : Jq) : ℚ := (q.num : ℚ) / (q.den : ℚ)

instance (n : Nat) : OfNat Jq n := ⟨Jq.ofNat n⟩

theorem den_add (a b : Jq) : (a.add b).den = a.den * b.den := by
  simp only [den, add]
  ring

theorem den_pos (q : Jq) : 0 < q.den := Nat.succ_pos _

theorem toRat_add (a b : Jq) : (a.add b).toRat = a.toRat + b.toRat := by
  have ha : ((a.den : ℚ)) ≠ 0 := by
    exact_mod_cast a.den_pos.ne'
  have hb : ((b.den : ℚ)) ≠ 0 := by
    exact_mod_cast b.den_pos.ne'
  have hnum : (a.add b).num = a.num * b.den + b.num * a.den := rfl
  unfold toRat
  rw [hnum, den_add]
  push_cast
  field_simp

theorem floor_toRat (q : Jq) : q.floor = ⌊q.toRat⌋ := by
  unfold floor toRat
  rw [Rat.floor_intCast_div_natCast, Int.fdiv_eq_ediv _ (by exact_mod_cast q.den_pos.le)]

theorem nonneg_iff_toRat (q : Jq) : q.nonneg ↔ 0 ≤ q.toRat := by
  unfold nonneg toRat
  have hd : (0 : ℚ) < (q.den : ℚ) := by exact_mod_cast q.den_pos
  rw [le_div_iff₀ hd, zero_mul]
  exact_mod_cast Iff.rfl

theorem toRat_ofNat (n : Nat) : (ofNat n).toRat = (n : ℚ) := by
  unfold ofNat toRat den
  simp

theorem floor_ofNat (n : Nat) : (ofNat n).floor = (n : Int) := by
  unfold ofNat floor den
  simp

theorem floor_ofInt (n : Int) : (ofInt n).floor = n := by
  unfold ofInt floor den
  simp

end Jq

/-- A value seen through JavaScript `Number(·)`: `some q` if the conversion
is a finite number `q`, `none` if it is not finite (`NaN`, `±Infinity`,
`undefined`, a non-numeric string). -/
abbrev JNum := Option Jq

/-- ECMAScript white space / line terminator code points (the set removed by
`String.prototype.trim`). -/
def wsProp (m : Nat) : Prop :=
  m = 9 ∨ m = 10 ∨ m = 11 ∨ m = 12 ∨ m = 13 ∨ m = 32 ∨ m = 160 ∨
  m = 5760 ∨ (8192 ≤ m ∧ m ≤ 8202) ∨ m = 8232 ∨ m = 8233 ∨ m = 8239 ∨
  m = 8287 ∨ m = 12288 ∨ m = 65279

instance (m : Nat) : Decidable (wsProp m) := by unfold wsProp; infer_instance

/-- Is the character JS white space? -/
def jsIsWs (c : Char) : Bool := decide (wsProp c.toNat)

/-- Embedding of `String.prototype.trim`: drop white space from both ends. -/
def jsTrim (l : JStr) : JStr :=
  ((l.dropWhile jsIsWs).reverse.dropWhile jsIsWs).reverse

/-- Embedding of `String.prototype.toLowerCase` (basic Latin). -/
def jsToLower (l : JStr) : JStr := l.map Char.toLower

/-- Embedding of `String.prototype.toUpperCase` (basic Latin). -/
def jsToUpper (l : JStr) : JStr := l.map Char.toUpper

/-- `String(userEmail ?? "").trim().toLowerCase()` as used throughout
`orders.js`. -/
def jsEmailNorm (l : JStr) : JStr := jsToLower (jsTrim l)

/- ### String lemmas used for normalization idempotence -/

theorem dropWhile_dropWhile (p : α → Bool) (l : List α) :
    (l.dropWhile p).dropWhile p = l.dropWhile p := by
  induction l with
  | nil => rfl
  | cons a t ih =>
    by_cases h : p a <;> simp [List.dropWhile_cons, h, ih]

theorem dropWhile_eq_self_mono {p : α → Bool} {x y : List α}
    (hpre : x <+: y) (hy : y.dropWhile p = y) : x.dropWhile p = x := by
  cases x with
  | nil => rfl
  | cons a x' =>
    obtain ⟨t, rfl⟩ := hpre
    have ha : p a = false := by
      by_contra hpa
      have hpa' : p a = true := by
        cases hh : p a
        · exact absurd hh hpa
        · rfl
      rw [List.cons_append, List.dropWhile_cons, if_pos hpa'] at hy
      have hlen : (List.dropWhile p (x' ++ t)).length = (x' ++ t).length + 1 := by
        rw [hy]
        simp
      have hle := (List.dropWhile_suffix (l := x' ++ t) p).length_le
      omega
    rw [List.dropWhile_cons, if_neg (by simp [ha])]

/-- Right trim: remove trailing white space. -/
def jsTrimR (l : JStr) : JStr := (l.reverse.dropWhile jsIsWs).reverse

theorem jsTrimR_isPrefixOf (l : JStr) : jsTrimR l <+: l := by
  unfold jsTrimR
  have h := List.dropWhile_suffix (l := l.reverse) jsIsWs
  have h2 : (l.reverse.dropWhile jsIsWs).reverse <+: l.reverse.reverse :=
    List.reverse_prefix.mpr h
  simpa using h2

theorem jsTrimR_idem (l : JStr) : jsTrimR (jsTrimR l) = jsTrimR l := by
  unfold jsTrimR
  rw [List.reverse_reverse, dropWhile_dropWhile]

theorem jsTrim_eq_trimR_dropWhile (l : JStr) :
    jsTrim l = jsTrimR (l.dropWhile jsIsWs) := rfl

theorem jsTrim_idem (l : JStr) : jsTrim (jsTrim l) = jsTrim l := by
  rw [jsTrim_eq_trimR_dropWhile]
  set L := l.dropWhile jsIsWs with hL
  have hLfix : L.dropWhile jsIsWs = L := by rw [hL, dropWhile_dropWhile]
  have hfix : (jsTrimR L).dropWhile jsIsWs = jsTrimR L :=
    dropWhile_eq_self_mono (jsTrimR_isPrefixOf L) hLfix
  show jsTrimR ((jsTrimR L).dropWhile jsIsWs) = jsTrimR L
  rw [hfix, jsTrimR_idem]

theorem dropWhile_map_of_pres {p : α → Bool} {f : α → α}
    (hf : ∀ c, p (f c) = p c) (l : List α) :
    (l.map f).dropWhile p = (l.dropWhile p).map f := by
  rw [List.dropWhile_map]
  have hpf : (p ∘ f) = p := funext hf
  rw [hpf]

theorem jsTrim_map_of_pres {f : Char → Char}
    (hf : ∀ c, jsIsWs (f c) = jsIsWs c) (l : JStr) :
    jsTrim (l.map f) = (jsTrim l).map f := by
  unfold jsTrim
  rw [dropWhile_map_of_pres hf, ← List.map_reverse, dropWhile_map_of_pres hf,
    List.map_reverse]

theorem char_toNat_ofNat {m : Nat} (h : m < 55296) :
    (Char.ofNat m).toNat = m := by
  rw [Char.ofNat, dif_pos (Or.inl h)]
  rfl

theorem char_toLower_toLower (c : Char) :
    c.toLower.toLower = c.toLower := by
  show Char.toLower (Char.toLower c) = Char.toLower c
  unfold Char.toLower
  by_cases h : c.toNat ≥ 65 ∧ c.toNat ≤ 90
  · rw [if_pos h]
    have h32 : (Char.ofNat (c.toNat + 32)).toNat = c.toNat + 32 :=
      char_toNat_ofNat (by omega)
    rw [if_neg (by rw [h32]; omega)]
  · rw [if_neg h, if_neg h]

theorem jsIsWs_toLower (c : Char) : jsIsWs c.toLower = jsIsWs c := by
  show jsIsWs (Char.toLower c) = jsIsWs c
  unfold Char.toLower
  by_cases h : c.toNat ≥ 65 ∧ c.toNat ≤ 90
  · rw [if_pos h]
    have h32 : (Char.ofNat (c.toNat + 32)).toNat = c.toNat + 32 :=
      char_toNat_ofNat (by omega)
    unfold jsIsWs
    rw [decide_eq_decide, h32]
    unfold wsProp
    omega
  · rw [if_neg h]

theorem jsToLower_jsToLower (l : JStr) :
    jsToLower (jsToLower l) = jsToLower l := by
  unfold jsToLower
  rw [List.map_map]
  exact List.map_congr_left fun c _ => char_toLower_toLower c

theorem jsEmailNorm_idem (l : JStr) :
    jsEmailNorm (jsEmailNorm l) = jsEmailNorm l := by
  unfold jsEmailNorm jsToLower
  rw [jsTrim_map_of_pres jsIsWs_toLower, jsTrim_idem, List.map_map]
  exact List.map_congr_left fun c _ => char_toLower_toLower c

/- ### Constants from `src/lib/orders.js` -/

namespace ORDER_STATUSES

def PENDING : JStr := str "pending"

def CONFIRMED : JStr := str "confirmed"

def CANCELLED : JStr := str "cancelled"

end ORDER_STATUSES

namespace SHIPPING_STATUSES

def AWAITING_CONFIRMATION : JStr := str "awaiting_confirmation"

def PROCESSING : JStr := str "processing"

def SHIPPED : JStr := str "shipped"

def DELIVERED : JStr := str "delivered"

def CANCELLED : JStr := str "cancelled"

end SHIPPING_STATUSES

def SHIPPING_STATUS_OPTIONS : List JStr :=
  [SHIPPING_STATUSES.AWAITING_CONFIRMATION,
   SHIPPING_STATUSES.PROCESSING,
   SHIPPING_STATUSES.SHIPPED,
   SHIPPING_STATUSES.DELIVERED,
   SHIPPING_STATUSES.CANCELLED]

/-- `SHIPPING_STATUS_LABELS`, as a function from status to label. -/
def SHIPPING_STATUS_LABELS (s : JStr) : JStr :=
  if s = SHIPPING_STATUSES.AWAITING_CONFIRMATION then str "Awaiting confirmation"
  else if s = SHIPPING_STATUSES.PROCESSING then str "Processing"
  else if s = SHIPPING_STATUSES.SHIPPED then str "Shipped"
  else if s = SHIPPING_STATUSES.DELIVERED then str "Delivered"
  else if s = SHIPPING_STATUSES.CANCELLED then str "Cancelled"
  else []

/- ### Data model: normalized records (the image of `normalizeOrder`) and raw
records (loosely-typed persisted input, `Option` = missing/nullish field). -/

structure TimelineEntry where
  id : JStr
  at' : Nat
  message : JStr
deriving DecidableEq

structure OrderItem where
  product_id : JStr
  product_name : JStr
  unit_price : Nat
  quantity : Nat
  image : JStr
  category : JStr
deriving DecidableEq

@[ext]
structure Order where
  id : JStr
  user_id : Option JStr
  user_email : JStr
  status : JStr
  shipping_status : JStr
  subtotal : Nat
  created_at : Nat
  updated_at : Nat
  confirmed_at : Option Nat
  items : List OrderItem
  timeline : List TimelineEntry
deriving DecidableEq

structure RawTimelineEntry where
  id : Option JStr
  at' : Option Nat
  message : Option JStr
deriving DecidableEq

structure RawItem where
  product_id : Option JStr
  id : Option JStr
  product_name : Option JStr
  name : Option JStr
  unit_price : Option JNum
  price : Option JNum
  quantity : Option JNum
  image : Option JStr
  category : Option JStr
deriving DecidableEq

structure RawOrder where
  id : Option JStr
  user_id : Option JStr
  user_email : Option JStr
  status : Option JStr
  shipping_status : Option JStr
  subtotal : JNum
  created_at : Option Nat
  updated_at : Option Nat
  confirmed_at : Option Nat
  items : Option (List RawItem)
  timeline : Option (List RawTimelineEntry)
deriving DecidableEq

/-- Re-read a normalized entry as a raw record (the JSON round trip). -/
def TimelineEntry.toRaw (e : TimelineEntry) : RawTimelineEntry :=
  { id := some e.id, at' := some e.at', message := some e.message }

/-- Re-read a normalized line item as a raw record. -/
def OrderItem.toRaw (i : OrderItem) : RawItem :=
  { product_id := some i.product_id, id := none,
    product_name := some i.product_name, name := none,
    unit_price := some (some (Jq.ofNat i.unit_price)), price := none,
    quantity := some (some (Jq.ofNat i.quantity)),
    image := some i.image, category := some i.category }

/-- Re-read a normalized order as a raw record. -/
def Order.toRaw (o : Order) : RawOrder :=
  { id := some o.id, user_id := o.user_id, user_email := some o.user_email,
    status := some o.status, shipping_status := some o.shipping_status,
    subtotal := some (Jq.ofNat o.subtotal),
    created_at := some o.created_at, updated_at := some o.updated_at,
    confirmed_at := o.confirmed_at,
    items := some (o.items.map OrderItem.toRaw),
    timeline := some (o.timeline.map TimelineEntry.toRaw) }

/- ### Normalization (`orders.js` lines 51–110) -/

/-- `safeNumber(value, fallback)`: the parsed number if finite, else the
fallback. -/
def safeNumber (value : JNum) (fallback : Jq) : Jq := value.getD fallback

/-- `safeInteger(value, fallback) = Math.max(0, Math.floor(safeNumber(...)))`.
The result is always a non-negative integer. -/
def safeInteger (value : JNum) (fallback : Jq) : Nat :=
  (max 0 (safeNumber value fallback).floor).toNat

/-- `normalizeStatus`: `ORDER_STATUSES[status?.toUpperCase?.()] ?? status ??
ORDER_STATUSES.PENDING`.  Note that a non-nullish status whose upper-casing is
not an `ORDER_STATUSES` key passes through unchanged. -/
def normalizeStatus (status : Option JStr) : JStr :=
  match status with
  | none => ORDER_STATUSES.PENDING
  | some s =>
    if jsToUpper s = str "PENDING" then ORDER_STATUSES.PENDING
    else if jsToUpper s = str "CONFIRMED" then ORDER_STATUSES.CONFIRMED
    else if jsToUpper s = str "CANCELLED" then ORDER_STATUSES.CANCELLED
    else s

/-- `normalizeShippingStatus`: falsy (missing or empty) and unrecognized
values collapse to `AWAITING_CONFIRMATION`. -/
def normalizeShippingStatus (shippingStatus : Option JStr) : JStr :=
  match shippingStatus with
  | none => SHIPPING_STATUSES.AWAITING_CONFIRMATION
  | some s =>
    if s = [] then SHIPPING_STATUSES.AWAITING_CONFIRMATION
    else if s ∈ SHIPPING_STATUS_OPTIONS then s
    else SHIPPING_STATUSES.AWAITING_CONFIRMATION

/-- `normalizeTimelineEntry`; `fresh`/`now` stand for `createId()` /
`toIsoNow()`. -/
def normalizeTimelineEntry (fresh : JStr) (now : Nat) (e : RawTimelineEntry) :
    TimelineEntry :=
  { id := e.id.getD fresh,
    at' := e.at'.getD now,
    message :=
      let m := jsTrim (e.message.getD [])
      if m = [] then str "Order updated" else m }

/-- The per-item coercion inside `sanitizeOrderItems`. -/
def sanitizeItem (item : RawItem) : OrderItem :=
  { product_id := ((item.product_id).orElse (fun _ => item.id)).getD []
    product_name :=
      ((item.product_name).orElse (fun _ => item.name)).getD
        (str "Untitled item")
    unit_price :=
      safeInteger (((item.unit_price).orElse (fun _ => item.price)).getD none) 0
    quantity := max 1 (safeInteger ((item.quantity).getD none) 1)
    image := (item.image).getD []
    category := (item.category).getD [] }

/-- `sanitizeOrderItems`: coerce each line item and drop items whose
`product_id` is falsy (empty). -/
def sanitizeOrderItems (items : Option (List RawItem)) : List OrderItem :=
  ((items.getD []).map sanitizeItem).filter
    (fun item => !item.product_id.isEmpty)

/-- Sum `Σ unit_price × quantity` over sanitized items (the `reduce` used for
the subtotal fallback). -/
def itemsSubtotal (items : List OrderItem) : Nat :=
  items.foldl (fun sum item => sum + item.unit_price * item.quantity) 0

/-- `normalizeOrder` (`orders.js` 87–110).  `fresh`/`now` stand for the values
produced by `createId()` / `toIsoNow()` for missing fields. -/
def normalizeOrder (fresh : JStr) (now : Nat) (order : RawOrder) : Order :=
  let items := sanitizeOrderItems order.items
  { id := (order.id).getD fresh,
    user_id := order.user_id,
    user_email := jsEmailNorm ((order.user_email).getD []),
    status := normalizeStatus order.status,
    shipping_status := normalizeShippingStatus order.shipping_status,
    subtotal := safeInteger order.subtotal (Jq.ofNat (itemsSubtotal items)),
    created_at := (order.created_at).getD now,
    updated_at := ((order.updated_at).orElse (fun _ => order.created_at)).getD now,
    confirmed_at := order.confirmed_at,
    items := items,
    timeline := ((order.timeline).getD []).map (normalizeTimelineEntry fresh now) }

/-- Stable insert for descending `created_at` order: a record is placed
before the first strictly older record, after records of the same age. -/
def insertByNewest (o : Order) : List Order → List Order
  | [] => [o]
  | x :: xs =>
    if x.created_at ≤ o.created_at then o :: x :: xs else x :: insertByNewest o xs

/-- `sortByNewest`: stable sort, newest `created_at` first.  The source uses
`Array.prototype.sort` (stable per ECMAScript) with comparator
`(a, b) => Date(b.created_at) - Date(a.created_at)`; a stable sort for a
total preorder is unique, so the stable insertion sort below is the JS
result. -/
def sortByNewest (orders : List Order) : List Order :=
  orders.foldr insertByNewest []

/-- `loadOrders`, from the parsed persisted array of raw records: normalize
every record, newest first.  (Missing or corrupt storage yields `[]` before
this point.) -/
def loadOrders (fresh : JStr) (now : Nat) (stored : List RawOrder) :
    List Order :=
  sortByNewest (stored.map (normalizeOrder fresh now))

/-- `saveOrders`: the persisted state written for a list of order records —
every record normalized, newest first. -/
def saveOrders (fresh : JStr) (now : Nat) (orders : List Order) : List Order :=
  sortByNewest (orders.map (fun o => normalizeOrder fresh now o.toRaw))


/-- Re-load a previously saved (hence normalized) persisted state: the JSON
round trip re-reads each record as raw, then `loadOrders` normalizes and
sorts again.  This is the `loadOrders()` call at the head of every mutating
operation. -/
def loadSaved (fresh : JStr) (now : Nat) (persisted : List Order) : List Order :=
  loadOrders fresh now (persisted.map Order.toRaw)

/-- The `orders.map(...)` + mutable `updatedOrder` pattern shared by
`confirmOrder`, `updateShippingStatus` and `cancelOrder`: `f` returns
`some next` when the callback replaces an order (after its early `return
order` guards fail), `none` when the order passes through unchanged.  The
second component is the value of the mutable variable after the map: the
replacement produced for the last order that was replaced. -/
def mapUpdate (f : Order → Option Order) : List Order → List Order × Option Order
  | [] => ([], none)
  | o :: rest =>
    let r := mapUpdate f rest
    match f o with
    | some n => (n :: r.1, (r.2).orElse (fun _ => some n))
    | none => (o :: r.1, r.2)

/-- The replacement record built inside `confirmOrder`'s map callback.  Note
there is no check of the current `status`: it is overwritten with
`CONFIRMED` unconditionally. -/
def confirmNext (fresh : JStr) (now : Nat) (adminEmail : JStr) (order : Order) :
    Order :=
  normalizeOrder fresh now
    { order.toRaw with
      status := some ORDER_STATUSES.CONFIRMED,
      shipping_status := some
        (if order.shipping_status = SHIPPING_STATUSES.AWAITING_CONFIRMATION
          then SHIPPING_STATUSES.PROCESSING else order.shipping_status),
      confirmed_at := some ((order.confirmed_at).getD now),
      updated_at := some now,
      timeline := some (order.timeline.map TimelineEntry.toRaw ++
        [⟨some fresh, some now, some (str "Order confirmed by " ++ adminEmail)⟩]) }

/-- `confirmOrder` (`orders.js` 208–241): load, replace the matching order,
save, return the replacement (or `null`).  The state (first component) is the
persisted list after the unconditional `saveOrders(nextOrders)`. -/
def confirmOrder (fresh : JStr) (now : Nat) (persisted : List Order)
    (orderId : JStr) (adminEmail : JStr := str "admin") :
    List Order × Option Order :=
  let orders := loadSaved fresh now persisted
  let r := mapUpdate (fun order =>
    if order.id = orderId then some (confirmNext fresh now adminEmail order)
    else none) orders
  (saveOrders fresh now r.1, r.2)

/-- The replacement record built inside `updateShippingStatus`'s map
callback. -/
def updateShippingNext (fresh : JStr) (now : Nat) (nextStatus : JStr)
    (adminEmail : JStr) (order : Order) : Order :=
  normalizeOrder fresh now
    { order.toRaw with
      shipping_status := some nextStatus,
      status := some (if nextStatus = SHIPPING_STATUSES.CANCELLED
        then ORDER_STATUSES.CANCELLED else order.status),
      updated_at := some now,
      timeline := some (order.timeline.map TimelineEntry.toRaw ++
        [⟨some fresh, some now,
          some (str "Shipping updated to \"" ++ SHIPPING_STATUS_LABELS nextStatus ++
            str "\" by " ++ adminEmail)⟩]) }

/-- `updateShippingStatus` (`orders.js` 243–281).  The requested status is
first coerced by `normalizeShippingStatus`; an order is replaced only when
its id matches and its current shipping status differs from the coerced
one. -/
def updateShippingStatus (fresh : JStr) (now : Nat) (persisted : List Order)
    (orderId : JStr) (shippingStatus : Option JStr)
    (adminEmail : JStr := str "admin") : List Order × Option Order :=
  let nextStatus := normalizeShippingStatus shippingStatus
  let orders := loadSaved fresh now persisted
  let r := mapUpdate (fun order =>
    if order.id = orderId ∧ order.shipping_status ≠ nextStatus then
      some (updateShippingNext fresh now nextStatus adminEmail order)
    else none) orders
  (saveOrders fresh now r.1, r.2)

/-- `canOrderBeCancelled` (`orders.js` 289–300), on a non-null order. -/
def canOrderBeCancelled (order : Order) : Bool :=
  if order.status = ORDER_STATUSES.CANCELLED then false
  else if order.shipping_status = SHIPPING_STATUSES.SHIPPED ∨
      order.shipping_status = SHIPPING_STATUSES.DELIVERED ∨
      order.shipping_status = SHIPPING_STATUSES.CANCELLED then false
  else true

/-- `canOrderBeCancelled` including its `if (!order) return false` guard. -/
def canOrderBeCancelledOpt : Option Order → Bool
  | none => false
  | some order => canOrderBeCancelled order

/-- The replacement record built inside `cancelOrder`'s map callback. -/
def cancelNext (fresh : JStr) (now : Nat) (order : Order) : Order :=
  normalizeOrder fresh now
    { order.toRaw with
      status := some ORDER_STATUSES.CANCELLED,
      shipping_status := some SHIPPING_STATUSES.CANCELLED,
      updated_at := some now,
      timeline := some (order.timeline.map TimelineEntry.toRaw ++
        [⟨some fresh, some now, some (str "Order cancelled by customer")⟩]) }

/-- The map callback of `cancelOrder`: the three early `return order` guards
(id mismatch, ownership mismatch for a non-empty normalized email,
non-cancellable), then the replacement. -/
def cancelCallback (fresh : JStr) (now : Nat) (orderId normalizedEmail : JStr)
    (order : Order) : Option Order :=
  if order.id ≠ orderId then none
  else if normalizedEmail ≠ [] ∧ order.user_email ≠ normalizedEmail then none
  else if canOrderBeCancelled order then some (cancelNext fresh now order)
  else none

/-- `cancelOrder` (`orders.js` 302–337).  An order is replaced only when its
id matches, the (normalized, non-empty) caller email matches its stored
`user_email`, and `canOrderBeCancelled` holds; the state is saved only when
some order was cancelled, otherwise the persisted state is untouched. -/
def cancelOrder (fresh : JStr) (now : Nat) (persisted : List Order)
    (orderId : JStr) (userEmail : JStr := []) : List Order × Option Order :=
  let r := mapUpdate
    (cancelCallback fresh now orderId (jsEmailNorm userEmail))
    (loadSaved fresh now persisted)
  match r.2 with
  | some _ => (saveOrders fresh now r.1, r.2)
  | none => (persisted, none)

/-- `createOrder` (`orders.js` 152–206).  Returns the new persisted state and
the created order.  `fresh`/`now` stand for the ids and timestamp generated
during the call. -/
def createOrder (fresh : JStr) (now : Nat) (persisted : List Order)
    (userId : Option JStr) (userEmail : Option JStr)
    (items : Option (List RawItem)) (subtotal : JNum) (autoConfirm : Bool) :
    List Order × Order :=
  let normalizedItems := sanitizeOrderItems items
  let computedSubtotal :=
    safeInteger subtotal (Jq.ofNat (itemsSubtotal normalizedItems))
  let isConfirmed := autoConfirm
  let timeline : List RawTimelineEntry :=
    [⟨some fresh, some now, some (str "Order placed by customer")⟩] ++
    (if isConfirmed then
      [⟨some fresh, some now, some (str "Order auto-confirmed by system")⟩]
     else [])
  let order := normalizeOrder fresh now
    { id := some fresh, user_id := userId, user_email := userEmail,
      status := some (if isConfirmed then ORDER_STATUSES.CONFIRMED
        else ORDER_STATUSES.PENDING),
      shipping_status := some (if isConfirmed then SHIPPING_STATUSES.PROCESSING
        else SHIPPING_STATUSES.AWAITING_CONFIRMATION),
      subtotal := some (Jq.ofNat computedSubtotal),
      created_at := some now, updated_at := some now,
      confirmed_at := if isConfirmed then some now else none,
      items := some (normalizedItems.map OrderItem.toRaw),
      timeline := some timeline }
  let orders := loadSaved fresh now persisted
  (saveOrders fresh now (order :: orders), order)


/- ### Products provider (`src/App.jsx` 429–553) -/

/-- A stored (possibly hand-edited) product record.  `isVisibleProduct`
requires a string id, so ids/names are modelled as strings; `stock`/`price`
go through `Number(·)` and are `JNum`s. -/
structure RawProduct where
  id : JStr
  name : JStr
  category : JStr
  price : JNum
  stock : JNum
  image : JStr
deriving DecidableEq

/-- A product as held in the provider state (the image of
`sanitizeProducts`): its stock has been normalized to a non-negative
integer. -/
structure Product where
  id : JStr
  name : JStr
  category : JStr
  price : JNum
  stock : Nat
  image : JStr
deriving DecidableEq

/-- Re-read a sanitized product as a raw record. -/
def Product.toRaw (p : Product) : RawProduct :=
  { id := p.id, name := p.name, category := p.category, price := p.price,
    stock := some (Jq.ofNat p.stock), image := p.image }

/-- The category fallback used by `toValidStock` when the value is not a
finite number `≥ 0`. -/
def stockDefault (category : JStr) : Nat :=
  if category = str "Accessories" then 30
  else if category = str "Lenses" then 12
  else 8

/-- `toValidStock` (`App.jsx` 433–439): `Math.floor(parsed)` when the parsed
value is finite and `≥ 0`, otherwise a category-dependent default (30 / 12 /
8 — not 0). -/
def toValidStock (value : JNum) (category : JStr) : Nat :=
  match value with
  | some q => if q.nonneg then q.floor.toNat else stockDefault category
  | none => stockDefault category

def REMOVED_PRODUCT_IDS : List JStr :=
  [str "cam-fujifilm-x1", str "cam-fujifilm-xt5", str "cam-fujifilm-xe4",
   str "cam-fujifilm-xt30-ii", str "cam-fujifilm-gfx100s"]

/-- `hasImage`: the image is a string with non-empty trim. -/
def hasImage (image : JStr) : Bool := !(jsTrim image).isEmpty

/-- `isVisibleProduct`, on a (stock-normalized) product record. -/
def isVisibleProduct (p : Product) : Bool :=
  !(jsTrim p.id).isEmpty && !(decide (p.id ∈ REMOVED_PRODUCT_IDS)) &&
    hasImage p.image

/-- `withSeedImage`.  `SEED_IMAGE_BY_ID` is built from the seed catalog
(`src/data/products`, application data outside the core): it maps some
product ids to non-empty image strings.  It is abstracted as the parameter
`seedImage`. -/
def withSeedImage (seedImage : JStr → Option JStr) (p : RawProduct) :
    RawProduct :=
  match seedImage p.id with
  | some im => { p with image := im }
  | none => p

/-- `withNormalizedStock`: replace `stock` by `toValidStock stock category`. -/
def withNormalizedStock (p : RawProduct) : Product :=
  { id := p.id, name := p.name, category := p.category, price := p.price,
    stock := toValidStock p.stock p.category, image := p.image }

/-- `sanitizeProducts` (`App.jsx` 479–482). -/
def sanitizeProducts (seedImage : JStr → Option JStr)
    (items : List RawProduct) : List Product :=
  (items.map (fun item => withNormalizedStock (withSeedImage seedImage item))).filter
    isVisibleProduct

/-- `updateProduct(id, { stock: n })` (`App.jsx` 527–533): spread the patch
over the matching product, then `sanitizeProducts`. -/
def updateProductStock (seedImage : JStr → Option JStr) (prev : List Product)
    (id : JStr) (stock : Nat) : List Product :=
  sanitizeProducts seedImage
    (prev.map (fun item =>
      if item.id = id then { item.toRaw with stock := some (Jq.ofNat stock) }
      else item.toRaw))

/-- `adjustStock` (`App.jsx` 535–549): on the matching product,
`nextStock = isFinite(current + delta) ? max(0, floor(current + delta)) :
current`; the whole list then passes through `sanitizeProducts`. -/
def adjustStock (seedImage : JStr → Option JStr) (prev : List Product)
    (id : JStr) (quantityDelta : JNum) : List Product :=
  sanitizeProducts seedImage
    (prev.map (fun item =>
      if item.id = id then
        match quantityDelta with
        | some d =>
          { item.toRaw with
            stock := some (Jq.ofNat (max 0 ((Jq.ofNat item.stock).add d).floor).toNat) }
        | none => { item.toRaw with stock := some (Jq.ofNat item.stock) }
      else item.toRaw))

/-- `handleStockSave` (admin products page): reject (no-op) unless the draft
parses to a finite value `≥ 0`, else patch the stock to `Math.floor` of it. -/
def handleStockSave (seedImage : JStr → Option JStr) (prev : List Product)
    (id : JStr) (draft : JNum) : List Product :=
  match draft with
  | none => prev
  | some v =>
    if v.nonneg then updateProductStock seedImage prev id v.floor.toNat
    else prev

/- ### Checkout (`handlePlaceOrder`) -/

/-- A cart line as seen by the checkout page. -/
structure CartItem where
  id : JStr
  name : JStr
  price : JNum
  quantity : Nat
  stock : JNum
  image : JStr
  category : JStr
deriving DecidableEq

/-- `toStock` (Checkout): `max(0, floor(value))`, 0 when not finite. -/
def toStock (value : JNum) : Nat :=
  match value with
  | none => 0
  | some q => (max 0 q.floor).toNat

/-- The `stockById` map: built by insertion over `products`, so a duplicated
id keeps the last entry. -/
def stockById (products : List Product) (id : JStr) : Option Nat :=
  ((products.reverse).find? (fun p => p.id = id)).map
    (fun p => toStock (some (Jq.ofNat p.stock)))

/-- `getCurrentStock`: catalog stock when the id is in the map (always a
finite number), else the cart line's own stock snapshot. -/
def getCurrentStock (products : List Product) (item : CartItem) : Nat :=
  match stockById products item.id with
  | some s => s
  | none => toStock item.stock

/-- The authentication collaborator's answer (`resolveAuthState`). -/
structure AuthState where
  isAuthenticated : Bool
  email : Option JStr
  userId : Option JStr
deriving DecidableEq

/-- The observable outcome of `handlePlaceOrder`: the error message set (if
any), the placed order (if any), and the two stores afterwards. -/
structure PlaceOutcome where
  checkoutError : Option JStr
  placedOrder : Option Order
  orders : List Order
  products : List Product
deriving DecidableEq

/-- The cart line, re-shaped for `createOrder` (the object literal in
`handlePlaceOrder`). -/
def CartItem.toOrderItem (item : CartItem) : RawItem :=
  { product_id := some item.id, id := none, product_name := some item.name,
    name := none, unit_price := some item.price, price := none,
    quantity := some (some (Jq.ofNat item.quantity)),
    image := some item.image, category := some item.category }

/-- `handlePlaceOrder` (Checkout page): guard on empty cart, then on
authentication, then on stock; on success create the order and decrement the
catalog stock of every line (using the stocks read from the pre-order
products snapshot). -/
def handlePlaceOrder (seedImage : JStr → Option JStr) (fresh : JStr)
    (now : Nat) (cart : List CartItem) (products : List Product)
    (auth : AuthState) (persisted : List Order) (subtotal : JNum)
    (autoConfirm : Bool) : PlaceOutcome :=
  if cart.isEmpty then ⟨none, none, persisted, products⟩
  else if ¬(auth.isAuthenticated = true ∧ auth.email ≠ none ∧
      auth.email ≠ some []) then
    ⟨some (str "Please sign in first before placing an order."), none,
      persisted, products⟩
  else
    let stockIssues := cart.filter
      (fun item => decide (getCurrentStock products item < item.quantity))
    if !stockIssues.isEmpty then
      let names := List.intercalate (str ", ")
        (stockIssues.map (fun item => item.name))
      ⟨some (str "Insufficient stock for: " ++ names ++
        str ". Please adjust cart quantity and try again."), none,
        persisted, products⟩
    else
      let r := createOrder fresh now persisted auth.userId auth.email
        (some (cart.map CartItem.toOrderItem)) subtotal autoConfirm
      let products' := cart.foldl (fun ps item =>
        updateProductStock seedImage ps item.id
          (max 0 ((getCurrentStock products item : Int) - item.quantity)).toNat)
        products
      ⟨none, some r.2, r.1, products'⟩


/- ### Concrete records used by the scenario theorems -/

/-- Scenario A/B line item: quantity 2 at unit price 100. -/
def scnItemA : RawItem :=
  { product_id := some (str "p1"), id := none,
    product_name := some (str "Camera"), name := none,
    unit_price := some (some (Jq.ofNat 100)), price := none,
    quantity := some (some (Jq.ofNat 2)), image := some (str "img1"),
    category := some (str "Cameras") }

/-- Scenario A/B line item: quantity 1 at unit price 50. -/
def scnItemB : RawItem :=
  { product_id := some (str "p2"), id := none,
    product_name := some (str "Strap"), name := none,
    unit_price := some (some (Jq.ofNat 50)), price := none,
    quantity := some (some (Jq.ofNat 1)), image := some (str "img2"),
    category := some (str "Accessories") }

/-- C6: `createOrder` on two line items (qty 2 @ 100, qty 1 @ 50) with
`autoConfirm = false` yields a pending order awaiting confirmation with
subtotal 250 and a one-entry timeline recording placement; with
`autoConfirm = true` it yields a confirmed, processing order with
`confirmed_at` set and a two-entry timeline. -/
theorem createOrder_scenario_AB :
    ((createOrder (str "o1") 0 [] none (some (str "a@b.c"))
        (some [scnItemA, scnItemB]) none false).2.status =
          ORDER_STATUSES.PENDING ∧
      (createOrder (str "o1") 0 [] none (some (str "a@b.c"))
        (some [scnItemA, scnItemB]) none false).2.shipping_status =
          SHIPPING_STATUSES.AWAITING_CONFIRMATION ∧
      (createOrder (str "o1") 0 [] none (some (str "a@b.c"))
        (some [scnItemA, scnItemB]) none false).2.subtotal = 250 ∧
      ((createOrder (str "o1") 0 [] none (some (str "a@b.c"))
        (some [scnItemA, scnItemB]) none false).2.timeline.map
          (fun e => e.message)) = [str "Order placed by customer"]) ∧
    ((createOrder (str "o1") 0 [] none (some (str "a@b.c"))
        (some [scnItemA, scnItemB]) none true).2.status =
          ORDER_STATUSES.CONFIRMED ∧
      (createOrder (str "o1") 0 [] none (some (str "a@b.c"))
        (some [scnItemA, scnItemB]) none true).2.shipping_status =
          SHIPPING_STATUSES.PROCESSING ∧
      (createOrder (str "o1") 0 [] none (some (str "a@b.c"))
        (some [scnItemA, scnItemB]) none true).2.confirmed_at = some 0 ∧
      (createOrder (str "o1") 0 [] none (some (str "a@b.c"))
        (some [scnItemA, scnItemB]) none true).2.timeline.length = 2) := by
  decide

/-- A stored order that is already Cancelled (all fields in normalized
form). -/
def cancelledStored : Order :=
  { id := str "o1", user_id := none, user_email := str "a@b.c",
    status := str "cancelled", shipping_status := str "cancelled",
    subtotal := 100, created_at := 0, updated_at := 0, confirmed_at := none,
    items := [], timeline := [⟨str "t0", 0, str "Order placed by customer"⟩] }

/-- C1 (counterexample): `confirmOrder` on a stored Cancelled order does not
leave it untouched — it succeeds, sets `status` to `confirmed` and appends a
timeline entry, contradicting the claimed `status ≠ Cancelled`
precondition. -/
theorem confirmOrder_no_cancelled_guard :
    ((confirmOrder (str "f") 1 [cancelledStored] (str "o1")
        (str "admin")).2.map Order.status) = some (str "confirmed") ∧
    ((confirmOrder (str "f") 1 [cancelledStored] (str "o1")
        (str "admin")).2.map (fun o => o.timeline.length)) = some 2 ∧
    (confirmOrder (str "f") 1 [cancelledStored] (str "o1")
        (str "admin")).1 ≠ [cancelledStored] := by
  decide

/-- The single line item used by the C2 counterexample trace. -/
def c2Item : RawItem :=
  { product_id := some (str "p1"), id := none,
    product_name := some (str "Camera"), name := none,
    unit_price := some (some (Jq.ofNat 100)), price := none,
    quantity := some (some (Jq.ofNat 1)), image := none, category := none }

/-- C2 (counterexample): create an order, cancel it, then confirm it — the
final stored order has `shipping_status = cancelled` but
`status = confirmed`, violating the claimed invariant. -/
theorem shipCancelled_invariant_broken :
    ∃ o ∈ (confirmOrder (str "t3") 12
        (cancelOrder (str "t2") 11
          (createOrder (str "o1") 10 [] none (some (str "a@b.c"))
            (some [c2Item]) none false).1 (str "o1") []).1
        (str "o1") (str "admin")).1,
      o.shipping_status = SHIPPING_STATUSES.CANCELLED ∧
      o.status ≠ ORDER_STATUSES.CANCELLED := by
  decide

/-- C7 (counterexample): a status outside the enum is not coerced into the
enum — `normalizeStatus` passes `"shipped"` through unchanged. -/
theorem normalizeStatus_passthrough :
    normalizeStatus (some (str "shipped")) = str "shipped" ∧
    str "shipped" ∉
      [ORDER_STATUSES.PENDING, ORDER_STATUSES.CONFIRMED,
        ORDER_STATUSES.CANCELLED] := by
  decide

/-- The stored product used by the C8 counterexample. -/
def storedProduct8 : Product :=
  { id := str "p1", name := str "Camera", category := [],
    price := some (Jq.ofNat 100), stock := 3, image := str "img" }

/-- C8 (counterexample): saving a non-finite stock value, or a negative one,
leaves the stored stock at 3 — it does not fall back to 0 (and does not
store `max(0, floor(-5)) = 0`). -/
theorem handleStockSave_not_zero_fallback :
    handleStockSave (fun _ => none) [storedProduct8] (str "p1") none =
      [storedProduct8] ∧
    handleStockSave (fun _ => none) [storedProduct8] (str "p1")
      (some (Jq.ofInt (-5))) = [storedProduct8] ∧
    storedProduct8.stock = 3 ∧ (3 : Nat) ≠ 0 := by
  decide


/- ### Infrastructure lemmas on the operation pattern -/

theorem mapUpdate_fst (f : Order → Option Order) (l : List Order) :
    (mapUpdate f l).1 = l.map (fun x => (f x).getD x) := by
  induction l with
  | nil => rfl
  | cons o rest ih =>
    cases h : f o <;> simp [mapUpdate, h, ih]

theorem mapUpdate_snd_none {f : Order → Option Order} {l : List Order}
    (h : ∀ x ∈ l, f x = none) : (mapUpdate f l).2 = none := by
  induction l with
  | nil => rfl
  | cons o rest ih =>
    have ho := h o (by simp)
    have ih' := ih (fun x hx => h x (by simp [hx]))
    simp [mapUpdate, ho, ih']

theorem mapUpdate_snd_or {f : Order → Option Order} {l : List Order}
    {n : Order} (h : ∀ x ∈ l, f x = none ∨ f x = some n) :
    (mapUpdate f l).2 = none ∨ (mapUpdate f l).2 = some n := by
  induction l with
  | nil => left; rfl
  | cons o rest ih =>
    have ih' := ih (fun x hx => h x (by simp [hx]))
    rcases h o (by simp) with ho | ho <;>
      rcases ih' with h2 | h2 <;> simp [mapUpdate, ho, h2]

theorem mapUpdate_snd_eq_some {f : Order → Option Order} {l : List Order}
    {n : Order} (h : ∀ x ∈ l, f x = none ∨ f x = some n)
    (hex : ∃ x ∈ l, f x = some n) : (mapUpdate f l).2 = some n := by
  induction l with
  | nil => simp at hex
  | cons o rest ih =>
    have hrest : ∀ x ∈ rest, f x = none ∨ f x = some n :=
      fun x hx => h x (by simp [hx])
    cases ho : f o with
    | none =>
      obtain ⟨x, hx, hfx⟩ := hex
      rcases List.mem_cons.mp hx with rfl | hx'
      · rw [ho] at hfx
        cases hfx
      · exact (by simp [mapUpdate, ho] :
          (mapUpdate f (o :: rest)).2 = (mapUpdate f rest).2) ▸
          ih hrest ⟨x, hx', hfx⟩
    | some m =>
      have hm : m = n := by
        rcases h o (by simp) with h' | h'
        · rw [ho] at h'
          cases h'
        · rw [ho] at h'
          exact Option.some.inj h'
      subst hm
      rcases mapUpdate_snd_or hrest with h2 | h2 <;> simp [mapUpdate, ho, h2]

theorem mem_insertByNewest {x o : Order} {l : List Order} :
    x ∈ insertByNewest o l ↔ x = o ∨ x ∈ l := by
  induction l with
  | nil => simp [insertByNewest]
  | cons a t ih =>
    by_cases h : a.created_at ≤ o.created_at
    · simp [insertByNewest, h, ih]
    · simp [insertByNewest, h, ih]
      tauto

theorem mem_sortByNewest {x : Order} {l : List Order} :
    x ∈ sortByNewest l ↔ x ∈ l := by
  induction l with
  | nil => simp [sortByNewest]
  | cons a t ih =>
    have hstep : sortByNewest (a :: t) = insertByNewest a (sortByNewest t) :=
      rfl
    rw [hstep, mem_insertByNewest, ih]
    simp

/- ### Facts about status normalization -/

theorem normalizeShippingStatus_mem (s : Option JStr) :
    normalizeShippingStatus s ∈ SHIPPING_STATUS_OPTIONS := by
  cases s with
  | none => decide
  | some t =>
    show (if t = [] then SHIPPING_STATUSES.AWAITING_CONFIRMATION
      else if t ∈ SHIPPING_STATUS_OPTIONS then t
      else SHIPPING_STATUSES.AWAITING_CONFIRMATION) ∈ SHIPPING_STATUS_OPTIONS
    by_cases h1 : t = []
    · rw [if_pos h1]
      decide
    · rw [if_neg h1]
      by_cases h2 : t ∈ SHIPPING_STATUS_OPTIONS
      · rw [if_pos h2]
        exact h2
      · rw [if_neg h2]
        decide

theorem normalizeShippingStatus_fix {t : JStr}
    (h : t ∈ SHIPPING_STATUS_OPTIONS) : normalizeShippingStatus (some t) = t := by
  fin_cases h <;> decide

theorem normalizeShippingStatus_eq_cancelled_iff (s : Option JStr) :
    normalizeShippingStatus s = SHIPPING_STATUSES.CANCELLED ↔
      s = some SHIPPING_STATUSES.CANCELLED := by
  cases s with
  | none => exact iff_of_false (by decide) (by simp)
  | some t =>
    show (if t = [] then SHIPPING_STATUSES.AWAITING_CONFIRMATION
      else if t ∈ SHIPPING_STATUS_OPTIONS then t
      else SHIPPING_STATUSES.AWAITING_CONFIRMATION) =
        SHIPPING_STATUSES.CANCELLED ↔ some t = some SHIPPING_STATUSES.CANCELLED
    by_cases h1 : t = []
    · subst h1
      rw [if_pos rfl]
      exact iff_of_false (by decide) (by decide)
    · rw [if_neg h1]
      by_cases h2 : t ∈ SHIPPING_STATUS_OPTIONS
      · rw [if_pos h2]
        constructor
        · intro h
          rw [h]
        · intro h
          exact Option.some.inj h
      · rw [if_neg h2]
        refine iff_of_false (by decide) (fun hh => h2 ?_)
        obtain rfl : t = SHIPPING_STATUSES.CANCELLED := Option.some.inj hh
        decide

/-- Every order produced by `loadSaved` has a recognized shipping status. -/
theorem shipping_mem_of_mem_loadSaved {fresh : JStr} {now : Nat}
    {persisted : List Order} {o : Order}
    (h : o ∈ loadSaved fresh now persisted) :
    o.shipping_status ∈ SHIPPING_STATUS_OPTIONS := by
  unfold loadSaved loadOrders at h
  rw [mem_sortByNewest] at h
  obtain ⟨r, _, rfl⟩ := List.mem_map.mp h
  exact normalizeShippingStatus_mem _

/-- C1 (amended): `confirmOrder` has no status precondition.  For the stored
order whose id matches — whatever its status, including Cancelled — it
returns the replacement record, which has `status = confirmed`, shipping
status mapped `awaiting_confirmation → processing` (otherwise unchanged),
`confirmed_at` filled if it was unset, and exactly one appended timeline
entry. -/
theorem confirmOrder_spec (fresh : JStr) (now : Nat) (persisted : List Order)
    (orderId adminEmail : JStr) (o : Order)
    (ho : o ∈ loadSaved fresh now persisted)
    (hid : o.id = orderId)
    (huniq : ∀ x ∈ loadSaved fresh now persisted, x.id = orderId → x = o) :
    (confirmOrder fresh now persisted orderId adminEmail).2 =
      some (confirmNext fresh now adminEmail o) ∧
    (confirmNext fresh now adminEmail o).status = ORDER_STATUSES.CONFIRMED ∧
    (confirmNext fresh now adminEmail o).shipping_status =
      (if o.shipping_status = SHIPPING_STATUSES.AWAITING_CONFIRMATION
        then SHIPPING_STATUSES.PROCESSING else o.shipping_status) ∧
    (confirmNext fresh now adminEmail o).confirmed_at =
      some ((o.confirmed_at).getD now) ∧
    (confirmNext fresh now adminEmail o).timeline.length =
      o.timeline.length + 1 := by
  refine ⟨?thread, ?stat, ?ship, ?conf, ?tl⟩
  case thread =>
    have key : (confirmOrder fresh now persisted orderId adminEmail).2 =
        (mapUpdate (fun order =>
          if order.id = orderId then
            some (confirmNext fresh now adminEmail order)
          else none) (loadSaved fresh now persisted)).2 := rfl
    rw [key]
    refine mapUpdate_snd_eq_some (fun x hx => ?_) ⟨o, ho, by rw [if_pos hid]⟩
    by_cases hxid : x.id = orderId
    · right
      rw [if_pos hxid, huniq x hx hxid]
    · left
      rw [if_neg hxid]
  case stat =>
    have key : (confirmNext fresh now adminEmail o).status =
        normalizeStatus (some ORDER_STATUSES.CONFIRMED) := rfl
    rw [key]
    decide
  case ship =>
    have key : (confirmNext fresh now adminEmail o).shipping_status =
        normalizeShippingStatus (some
          (if o.shipping_status = SHIPPING_STATUSES.AWAITING_CONFIRMATION
            then SHIPPING_STATUSES.PROCESSING else o.shipping_status)) := rfl
    rw [key]
    by_cases h : o.shipping_status = SHIPPING_STATUSES.AWAITING_CONFIRMATION
    · rw [if_pos h]
      decide
    · rw [if_neg h]
      exact normalizeShippingStatus_fix (shipping_mem_of_mem_loadSaved ho)
  case conf => rfl
  case tl =>
    have key : (confirmNext fresh now adminEmail o).timeline =
        ((o.timeline.map TimelineEntry.toRaw) ++
          ([⟨some fresh, some now,
            some (str "Order confirmed by " ++ adminEmail)⟩] :
              List RawTimelineEntry)).map
          (normalizeTimelineEntry fresh now) := rfl
    rw [key]
    simp

/-- C1 (witness): the amended theorem applied to the concrete Cancelled
stored order. -/
theorem confirmOrder_spec_witness :
    (confirmOrder (str "f") 1 [cancelledStored] (str "o1") (str "admin")).2 =
      some (confirmNext (str "f") 1 (str "admin") cancelledStored) ∧
    (confirmNext (str "f") 1 (str "admin") cancelledStored).status =
      ORDER_STATUSES.CONFIRMED ∧
    (confirmNext (str "f") 1 (str "admin") cancelledStored).shipping_status =
      (if cancelledStored.shipping_status =
          SHIPPING_STATUSES.AWAITING_CONFIRMATION
        then SHIPPING_STATUSES.PROCESSING
        else cancelledStored.shipping_status) ∧
    (confirmNext (str "f") 1 (str "admin") cancelledStored).confirmed_at =
      some ((cancelledStored.confirmed_at).getD 1) ∧
    (confirmNext (str "f") 1 (str "admin") cancelledStored).timeline.length =
      cancelledStored.timeline.length + 1 :=
  confirmOrder_spec (str "f") 1 [cancelledStored] (str "o1") (str "admin")
    cancelledStored (by decide) (by decide) (by decide)


/-- C7 (amended): a nullish order status becomes `pending`, an order status
whose upper-casing is an `ORDER_STATUSES` key is canonicalized, and any
unrecognized shipping status collapses to `awaiting_confirmation`; but a
non-null order status outside the enum is not coerced — it passes through
unchanged. -/
theorem normalize_enum_defaults :
    (∀ t : JStr, t ∉ SHIPPING_STATUS_OPTIONS →
      normalizeShippingStatus (some t) =
        SHIPPING_STATUSES.AWAITING_CONFIRMATION) ∧
    normalizeShippingStatus none = SHIPPING_STATUSES.AWAITING_CONFIRMATION ∧
    normalizeStatus none = ORDER_STATUSES.PENDING ∧
    (∀ t : JStr,
      (jsToUpper t = str "PENDING" →
        normalizeStatus (some t) = ORDER_STATUSES.PENDING) ∧
      (jsToUpper t = str "CONFIRMED" →
        normalizeStatus (some t) = ORDER_STATUSES.CONFIRMED) ∧
      (jsToUpper t = str "CANCELLED" →
        normalizeStatus (some t) = ORDER_STATUSES.CANCELLED)) ∧
    (∀ t : JStr, jsToUpper t ≠ str "PENDING" → jsToUpper t ≠ str "CONFIRMED" →
      jsToUpper t ≠ str "CANCELLED" → normalizeStatus (some t) = t) := by
  refine ⟨fun t ht => ?_, rfl, rfl,
    fun t => ⟨fun h1 => ?_, fun h2 => ?_, fun h3 => ?_⟩,
    fun t h1 h2 h3 => ?_⟩
  · show (if t = [] then SHIPPING_STATUSES.AWAITING_CONFIRMATION
      else if t ∈ SHIPPING_STATUS_OPTIONS then t
      else SHIPPING_STATUSES.AWAITING_CONFIRMATION) =
        SHIPPING_STATUSES.AWAITING_CONFIRMATION
    by_cases he : t = []
    · rw [if_pos he]
    · rw [if_neg he, if_neg ht]
  · show (if jsToUpper t = str "PENDING" then ORDER_STATUSES.PENDING
      else if jsToUpper t = str "CONFIRMED" then ORDER_STATUSES.CONFIRMED
      else if jsToUpper t = str "CANCELLED" then ORDER_STATUSES.CANCELLED
      else t) = ORDER_STATUSES.PENDING
    rw [if_pos h1]
  · show (if jsToUpper t = str "PENDING" then ORDER_STATUSES.PENDING
      else if jsToUpper t = str "CONFIRMED" then ORDER_STATUSES.CONFIRMED
      else if jsToUpper t = str "CANCELLED" then ORDER_STATUSES.CANCELLED
      else t) = ORDER_STATUSES.CONFIRMED
    rw [if_neg (by rw [h2]; decide), if_pos h2]
  · show (if jsToUpper t = str "PENDING" then ORDER_STATUSES.PENDING
      else if jsToUpper t = str "CONFIRMED" then ORDER_STATUSES.CONFIRMED
      else if jsToUpper t = str "CANCELLED" then ORDER_STATUSES.CANCELLED
      else t) = ORDER_STATUSES.CANCELLED
    rw [if_neg (by rw [h3]; decide), if_neg (by rw [h3]; decide), if_pos h3]
  · show (if jsToUpper t = str "PENDING" then ORDER_STATUSES.PENDING
      else if jsToUpper t = str "CONFIRMED" then ORDER_STATUSES.CONFIRMED
      else if jsToUpper t = str "CANCELLED" then ORDER_STATUSES.CANCELLED
      else t) = t
    rw [if_neg h1, if_neg h2, if_neg h3]

/-- C7 (witness): the amended theorem at an unrecognized shipping status
(`"weird"`), at statuses whose upper-casing is an enum key (`"Pending"`,
`"cAnCeLlEd"`), and at an out-of-enum status (`"odd"`). -/
theorem normalize_enum_defaults_witness :
    normalizeShippingStatus (some (str "weird")) =
      SHIPPING_STATUSES.AWAITING_CONFIRMATION ∧
    normalizeStatus (some (str "Pending")) = ORDER_STATUSES.PENDING ∧
    normalizeStatus (some (str "cAnCeLlEd")) = ORDER_STATUSES.CANCELLED ∧
    normalizeStatus (some (str "odd")) = str "odd" :=
  ⟨normalize_enum_defaults.1 (str "weird") (by decide),
   (normalize_enum_defaults.2.2.2.1 (str "Pending")).1 (by decide),
   (normalize_enum_defaults.2.2.2.1 (str "cAnCeLlEd")).2.2 (by decide),
   normalize_enum_defaults.2.2.2.2 (str "odd") (by decide) (by decide)
     (by decide)⟩

/-- `canOrderBeCancelled` is exactly "status is not cancelled and shipping is
none of shipped / delivered / cancelled". -/
theorem canOrderBeCancelled_iff (o : Order) :
    canOrderBeCancelled o = true ↔
      (o.status ≠ ORDER_STATUSES.CANCELLED ∧
        o.shipping_status ≠ SHIPPING_STATUSES.SHIPPED ∧
        o.shipping_status ≠ SHIPPING_STATUSES.DELIVERED ∧
        o.shipping_status ≠ SHIPPING_STATUSES.CANCELLED) := by
  unfold canOrderBeCancelled
  by_cases h1 : o.status = ORDER_STATUSES.CANCELLED
  · rw [if_pos h1]
    constructor
    · intro h
      exact absurd h Bool.false_ne_true
    · intro hh
      exact absurd h1 hh.1
  · rw [if_neg h1]
    by_cases h2 : o.shipping_status = SHIPPING_STATUSES.SHIPPED ∨
        o.shipping_status = SHIPPING_STATUSES.DELIVERED ∨
        o.shipping_status = SHIPPING_STATUSES.CANCELLED
    · rw [if_pos h2]
      constructor
      · intro h
        exact absurd h Bool.false_ne_true
      · intro hh
        rcases h2 with h | h | h
        · exact absurd h hh.2.1
        · exact absurd h hh.2.2.1
        · exact absurd h hh.2.2.2
    · rw [if_neg h2]
      push_neg at h2
      exact ⟨fun _ => ⟨h1, h2.1, h2.2.1, h2.2.2⟩, fun _ => rfl⟩

/-- C5: customer cancellation succeeds exactly when the pure predicate
`canOrderBeCancelled` holds of the stored order (which is precisely
"status ≠ cancelled and shipping ∉ {shipped, delivered, cancelled}"); and on
a non-cancellable order it returns `none` and leaves the persisted state —
hence the order and its timeline length — untouched. -/
theorem cancelOrder_iff_canBeCancelled (fresh : JStr) (now : Nat)
    (persisted : List Order) (orderId : JStr) (o : Order)
    (ho : o ∈ loadSaved fresh now persisted)
    (hid : o.id = orderId)
    (huniq : ∀ x ∈ loadSaved fresh now persisted, x.id = orderId → x = o) :
    ((cancelOrder fresh now persisted orderId []).2.isSome =
      canOrderBeCancelled o) ∧
    (canOrderBeCancelled o = true ↔
      (o.status ≠ ORDER_STATUSES.CANCELLED ∧
        o.shipping_status ≠ SHIPPING_STATUSES.SHIPPED ∧
        o.shipping_status ≠ SHIPPING_STATUSES.DELIVERED ∧
        o.shipping_status ≠ SHIPPING_STATUSES.CANCELLED)) ∧
    (canOrderBeCancelled o = false →
      cancelOrder fresh now persisted orderId [] = (persisted, none)) := by
  have hje : jsEmailNorm ([] : JStr) = [] := rfl
  have hcb : ∀ x : Order, cancelCallback fresh now orderId (jsEmailNorm []) x =
      (if x.id ≠ orderId then none
       else if canOrderBeCancelled x then some (cancelNext fresh now x)
       else none) := by
    intro x
    unfold cancelCallback
    rw [hje]
    by_cases hxid : x.id ≠ orderId
    · rw [if_pos hxid, if_pos hxid]
    · rw [if_neg hxid, if_neg hxid, if_neg (by simp)]
  have hunfold : cancelOrder fresh now persisted orderId [] =
      (match (mapUpdate (cancelCallback fresh now orderId (jsEmailNorm []))
          (loadSaved fresh now persisted)).2 with
        | some _ =>
          (saveOrders fresh now
            (mapUpdate (cancelCallback fresh now orderId (jsEmailNorm []))
              (loadSaved fresh now persisted)).1,
           (mapUpdate (cancelCallback fresh now orderId (jsEmailNorm []))
              (loadSaved fresh now persisted)).2)
        | none => (persisted, none)) := rfl
  by_cases hcan : canOrderBeCancelled o
  · have hsnd : (mapUpdate (cancelCallback fresh now orderId (jsEmailNorm []))
        (loadSaved fresh now persisted)).2 = some (cancelNext fresh now o) := by
      refine mapUpdate_snd_eq_some (fun x hx => ?_) ⟨o, ho, ?_⟩
      · rw [hcb x]
        by_cases hxid : x.id = orderId
        · right
          rw [huniq x hx hxid, if_neg (by simp [hid]), if_pos hcan]
        · left
          rw [if_pos hxid]
      · rw [hcb o, if_neg (by simp [hid]), if_pos hcan]
    refine ⟨?_, canOrderBeCancelled_iff o, fun hfalse => ?_⟩
    · rw [hunfold, hsnd]
      simp [hcan]
    · rw [hcan] at hfalse
      cases hfalse
  · have hsnd : (mapUpdate (cancelCallback fresh now orderId (jsEmailNorm []))
        (loadSaved fresh now persisted)).2 = none := by
      refine mapUpdate_snd_none (fun x hx => ?_)
      rw [hcb x]
      by_cases hxid : x.id = orderId
      · rw [huniq x hx hxid, if_neg (by simp [hid]), if_neg hcan]
      · rw [if_pos hxid]
    constructor
    · rw [hunfold, hsnd]
      simp [Bool.eq_false_iff.mpr hcan]
    refine ⟨canOrderBeCancelled_iff o, fun _ => ?_⟩
    rw [hunfold, hsnd]

/-- A stored order that has already been shipped (so not cancellable). -/
def shippedStored : Order :=
  { id := str "o1", user_id := none, user_email := str "a@b.c",
    status := str "confirmed", shipping_status := str "shipped",
    subtotal := 100, created_at := 0, updated_at := 0, confirmed_at := some 0,
    items := [], timeline := [⟨str "t0", 0, str "Order placed by customer"⟩] }

/-- C5 (witness): the theorem at a concrete shipped order — cancellation
fails and the persisted state is returned untouched. -/
theorem cancelOrder_iff_canBeCancelled_witness :
    ((cancelOrder (str "f") 1 [shippedStored] (str "o1") []).2.isSome =
      canOrderBeCancelled shippedStored) ∧
    (canOrderBeCancelled shippedStored = true ↔
      (shippedStored.status ≠ ORDER_STATUSES.CANCELLED ∧
        shippedStored.shipping_status ≠ SHIPPING_STATUSES.SHIPPED ∧
        shippedStored.shipping_status ≠ SHIPPING_STATUSES.DELIVERED ∧
        shippedStored.shipping_status ≠ SHIPPING_STATUSES.CANCELLED)) ∧
    (canOrderBeCancelled shippedStored = false →
      cancelOrder (str "f") 1 [shippedStored] (str "o1") [] =
        ([shippedStored], none)) :=
  cancelOrder_iff_canBeCancelled (str "f") 1 [shippedStored] (str "o1")
    shippedStored (by decide) (by decide) (by decide)

/-- C10: the implicit ownership guard in `cancelOrder`.  With a caller email
that is non-empty after normalization, the matching order is only mutated
when its stored `user_email` equals the normalized caller email: if every
matching order mismatches, the call returns `none` and the persisted state
is unchanged.  With an empty (after normalization) caller email the guard is
skipped entirely — the call behaves exactly like a call with the empty
email. -/
theorem cancelOrder_ownership (fresh : JStr) (now : Nat)
    (persisted : List Order) (orderId userEmail : JStr) :
    (jsEmailNorm userEmail ≠ [] →
      (∀ x ∈ loadSaved fresh now persisted, x.id = orderId →
        x.user_email ≠ jsEmailNorm userEmail) →
      cancelOrder fresh now persisted orderId userEmail =
        (persisted, none)) ∧
    (jsEmailNorm userEmail = [] →
      cancelOrder fresh now persisted orderId userEmail =
        cancelOrder fresh now persisted orderId []) := by
  constructor
  · intro hne hmis
    have hunfold : cancelOrder fresh now persisted orderId userEmail =
        (match (mapUpdate
            (cancelCallback fresh now orderId (jsEmailNorm userEmail))
            (loadSaved fresh now persisted)).2 with
          | some _ =>
            (saveOrders fresh now
              (mapUpdate
                (cancelCallback fresh now orderId (jsEmailNorm userEmail))
                (loadSaved fresh now persisted)).1,
             (mapUpdate
                (cancelCallback fresh now orderId (jsEmailNorm userEmail))
                (loadSaved fresh now persisted)).2)
          | none => (persisted, none)) := rfl
    have hsnd : (mapUpdate
        (cancelCallback fresh now orderId (jsEmailNorm userEmail))
        (loadSaved fresh now persisted)).2 = none := by
      refine mapUpdate_snd_none (fun x hx => ?_)
      unfold cancelCallback
      by_cases hxid : x.id = orderId
      · rw [if_neg (by simp [hxid]), if_pos ⟨hne, hmis x hx hxid⟩]
      · rw [if_pos hxid]
    rw [hunfold, hsnd]
  · intro hempty
    simp only [cancelOrder, hempty, show jsEmailNorm ([] : JStr) = [] from rfl]

/-- A stored cancellable order owned by `owner@x.y`. -/
def ownedStored : Order :=
  { id := str "o1", user_id := none, user_email := str "owner@x.y",
    status := str "pending", shipping_status := str "awaiting_confirmation",
    subtotal := 100, created_at := 0, updated_at := 0, confirmed_at := none,
    items := [], timeline := [⟨str "t0", 0, str "Order placed by customer"⟩] }

/-- C10 (witness): a mismatched caller email leaves the state unchanged and
returns `none`; an empty caller email behaves as the guard-free call. -/
theorem cancelOrder_ownership_witness :
    cancelOrder (str "f") 1 [ownedStored] (str "o1") (str " Other@x.y ") =
      ([ownedStored], none) ∧
    cancelOrder (str "f") 1 [ownedStored] (str "o1") (str "   ") =
      cancelOrder (str "f") 1 [ownedStored] (str "o1") [] :=
  ⟨(cancelOrder_ownership (str "f") 1 [ownedStored] (str "o1")
      (str " Other@x.y ")).1 (by decide) (by decide),
   (cancelOrder_ownership (str "f") 1 [ownedStored] (str "o1")
      (str "   ")).2 (by decide)⟩


/- ### The lifecycle trace semantics (for the C2 invariant) -/

/-- One lifecycle event, carrying the inputs of its source function
(`fresh`/`now` are the id/timestamp values consumed by that call). -/
inductive Op where
  | create (userId userEmail : Option JStr) (items : Option (List RawItem))
      (subtotal : JNum) (autoConfirm : Bool) (fresh : JStr) (now : Nat)
  | confirm (orderId adminEmail fresh : JStr) (now : Nat)
  | updShip (orderId : JStr) (shippingStatus : Option JStr)
      (adminEmail fresh : JStr) (now : Nat)
  | cancel (orderId userEmail fresh : JStr) (now : Nat)

/-- The persisted state after one lifecycle operation. -/
def runOp (s : List Order) : Op → List Order
  | .create uid ue items sub ac f n => (createOrder f n s uid ue items sub ac).1
  | .confirm oid ae f n => (confirmOrder f n s oid ae).1
  | .updShip oid st ae f n => (updateShippingStatus f n s oid st ae).1
  | .cancel oid ue f n => (cancelOrder f n s oid ue).1

/-- The persisted state after a sequence of lifecycle operations. -/
def runOps (s : List Order) (ops : List Op) : List Order := ops.foldl runOp s

/-- The per-order invariant of the claim: a cancelled shipping status forces
a cancelled order status. -/
def shipCancelImplies (o : Order) : Prop :=
  o.shipping_status = SHIPPING_STATUSES.CANCELLED →
    o.status = ORDER_STATUSES.CANCELLED

/-- The claimed state invariant. -/
def StateInv (s : List Order) : Prop := ∀ o ∈ s, shipCancelImplies o

/-- The side condition forced by the C2 counterexample: a `confirm` must not
hit an order whose shipping status is already cancelled (the other three
operations need no condition). -/
def okStep (s : List Order) : Op → Prop
  | .confirm oid _ f n => ∀ o ∈ loadSaved f n s, o.id = oid →
      o.shipping_status ≠ SHIPPING_STATUSES.CANCELLED
  | _ => True

/-- `okStep` at every point of a trace. -/
def okTrace : List Order → List Op → Prop
  | _, [] => True
  | s, op :: rest => okStep s op ∧ okTrace (runOp s op) rest

theorem shipCancelImplies_normalize (f : JStr) (n : Nat) (raw : RawOrder)
    (h : raw.shipping_status = some SHIPPING_STATUSES.CANCELLED →
      raw.status = some ORDER_STATUSES.CANCELLED) :
    shipCancelImplies (normalizeOrder f n raw) := by
  intro hs
  have h1 : (normalizeOrder f n raw).shipping_status =
      normalizeShippingStatus raw.shipping_status := rfl
  rw [h1, normalizeShippingStatus_eq_cancelled_iff] at hs
  have h2 : (normalizeOrder f n raw).status = normalizeStatus raw.status := rfl
  rw [h2, h hs]
  decide

theorem StateInv_loadSaved {f : JStr} {n : Nat} {s : List Order}
    (h : StateInv s) : StateInv (loadSaved f n s) := by
  intro x hx
  unfold loadSaved loadOrders at hx
  rw [mem_sortByNewest] at hx
  obtain ⟨r, hr, rfl⟩ := List.mem_map.mp hx
  obtain ⟨o, ho, rfl⟩ := List.mem_map.mp hr
  apply shipCancelImplies_normalize
  intro hraw
  have hss : o.shipping_status = SHIPPING_STATUSES.CANCELLED :=
    Option.some.inj hraw
  show some o.status = some ORDER_STATUSES.CANCELLED
  rw [h o ho hss]

theorem StateInv_save {f : JStr} {n : Nat} {l : List Order}
    (h : ∀ o ∈ l, shipCancelImplies o) : StateInv (saveOrders f n l) := by
  intro x hx
  unfold saveOrders at hx
  rw [mem_sortByNewest] at hx
  obtain ⟨o, ho, rfl⟩ := List.mem_map.mp hx
  apply shipCancelImplies_normalize
  intro hraw
  have hss : o.shipping_status = SHIPPING_STATUSES.CANCELLED :=
    Option.some.inj hraw
  show some o.status = some ORDER_STATUSES.CANCELLED
  rw [h o ho hss]

theorem StateInv_runOp {s : List Order} {op : Op} (h : StateInv s)
    (hok : okStep s op) : StateInv (runOp s op) := by
  cases op with
  | create uid ue items sub ac f n =>
    show StateInv (createOrder f n s uid ue items sub ac).1
    have hkey : (createOrder f n s uid ue items sub ac).1 =
        saveOrders f n ((createOrder f n s uid ue items sub ac).2 ::
          loadSaved f n s) := rfl
    rw [hkey]
    apply StateInv_save
    intro o ho
    rcases List.mem_cons.mp ho with rfl | ho'
    · intro hs
      exfalso
      have hkey2 : ((createOrder f n s uid ue items sub ac).2).shipping_status =
          normalizeShippingStatus (some (if ac = true then
            SHIPPING_STATUSES.PROCESSING
            else SHIPPING_STATUSES.AWAITING_CONFIRMATION)) := rfl
      rw [hkey2, normalizeShippingStatus_eq_cancelled_iff] at hs
      have heq := Option.some.inj hs
      by_cases hac : ac = true
      · rw [if_pos hac] at heq
        exact absurd heq (by decide)
      · rw [if_neg hac] at heq
        exact absurd heq (by decide)
    · exact StateInv_loadSaved h o ho'
  | confirm oid ae f n =>
    show StateInv (confirmOrder f n s oid ae).1
    have hkey : (confirmOrder f n s oid ae).1 =
        saveOrders f n (mapUpdate (fun order =>
          if order.id = oid then some (confirmNext f n ae order) else none)
          (loadSaved f n s)).1 := rfl
    rw [hkey]
    apply StateInv_save
    intro o ho
    rw [mapUpdate_fst] at ho
    obtain ⟨x, hx, rfl⟩ := List.mem_map.mp ho
    by_cases hxid : x.id = oid
    · rw [if_pos hxid]
      show shipCancelImplies (confirmNext f n ae x)
      intro hs
      exfalso
      have hkey2 : (confirmNext f n ae x).shipping_status =
          normalizeShippingStatus (some
            (if x.shipping_status = SHIPPING_STATUSES.AWAITING_CONFIRMATION
              then SHIPPING_STATUSES.PROCESSING
              else x.shipping_status)) := rfl
      rw [hkey2, normalizeShippingStatus_eq_cancelled_iff] at hs
      have heq := Option.some.inj hs
      by_cases ha : x.shipping_status = SHIPPING_STATUSES.AWAITING_CONFIRMATION
      · rw [if_pos ha] at heq
        exact absurd heq (by decide)
      · rw [if_neg ha] at heq
        exact hok x hx hxid heq
    · rw [if_neg hxid]
      exact StateInv_loadSaved h x hx
  | updShip oid st ae f n =>
    show StateInv (updateShippingStatus f n s oid st ae).1
    have hkey : (updateShippingStatus f n s oid st ae).1 =
        saveOrders f n (mapUpdate (fun order =>
          if order.id = oid ∧
              order.shipping_status ≠ normalizeShippingStatus st then
            some (updateShippingNext f n (normalizeShippingStatus st) ae order)
          else none) (loadSaved f n s)).1 := rfl
    rw [hkey]
    apply StateInv_save
    intro o ho
    rw [mapUpdate_fst] at ho
    obtain ⟨x, hx, rfl⟩ := List.mem_map.mp ho
    by_cases hxid : x.id = oid ∧
        x.shipping_status ≠ normalizeShippingStatus st
    · rw [if_pos hxid]
      show shipCancelImplies
        (updateShippingNext f n (normalizeShippingStatus st) ae x)
      intro hs
      have hship : (updateShippingNext f n (normalizeShippingStatus st) ae
          x).shipping_status =
          normalizeShippingStatus (some (normalizeShippingStatus st)) := rfl
      rw [hship, normalizeShippingStatus_eq_cancelled_iff] at hs
      have hnc : normalizeShippingStatus st = SHIPPING_STATUSES.CANCELLED :=
        Option.some.inj hs
      have hstat : (updateShippingNext f n (normalizeShippingStatus st) ae
          x).status = normalizeStatus (some
            (if normalizeShippingStatus st = SHIPPING_STATUSES.CANCELLED
              then ORDER_STATUSES.CANCELLED else x.status)) := rfl
      rw [hstat, if_pos hnc]
      decide
    · rw [if_neg hxid]
      exact StateInv_loadSaved h x hx
  | cancel oid ue f n =>
    show StateInv (cancelOrder f n s oid ue).1
    have hunfold : cancelOrder f n s oid ue =
        (match (mapUpdate (cancelCallback f n oid (jsEmailNorm ue))
            (loadSaved f n s)).2 with
          | some _ =>
            (saveOrders f n (mapUpdate (cancelCallback f n oid
                (jsEmailNorm ue)) (loadSaved f n s)).1,
             (mapUpdate (cancelCallback f n oid (jsEmailNorm ue))
                (loadSaved f n s)).2)
          | none => (s, none)) := rfl
    cases hr : (mapUpdate (cancelCallback f n oid (jsEmailNorm ue))
        (loadSaved f n s)).2 with
    | none =>
      rw [hunfold, hr]
      exact h
    | some w =>
      rw [hunfold, hr]
      apply StateInv_save
      intro o ho
      rw [mapUpdate_fst] at ho
      obtain ⟨x, hx, rfl⟩ := List.mem_map.mp ho
      cases hcx : cancelCallback f n oid (jsEmailNorm ue) x with
      | none =>
        show shipCancelImplies x
        exact StateInv_loadSaved h x hx
      | some w2 =>
        show shipCancelImplies w2
        have hw2 : w2 = cancelNext f n x := by
          unfold cancelCallback at hcx
          by_cases h1 : x.id ≠ oid
          · rw [if_pos h1] at hcx
            cases hcx
          · rw [if_neg h1] at hcx
            by_cases h2 : jsEmailNorm ue ≠ [] ∧
                x.user_email ≠ jsEmailNorm ue
            · rw [if_pos h2] at hcx
              cases hcx
            · rw [if_neg h2] at hcx
              by_cases h3 : canOrderBeCancelled x
              · rw [if_pos h3] at hcx
                exact (Option.some.inj hcx).symm
              · rw [if_neg h3] at hcx
                cases hcx
        subst hw2
        show shipCancelImplies (cancelNext f n x)
        intro _
        have hst : (cancelNext f n x).status =
            normalizeStatus (some ORDER_STATUSES.CANCELLED) := rfl
        rw [hst]
        decide

/-- C2 (amended): starting from any state satisfying the invariant, after
any sequence of `createOrder` / `confirmOrder` / `updateShippingStatus` /
`cancelOrder` operations in which `confirmOrder` is never applied to an
order whose shipping status is already cancelled, every stored order with
`shipping_status = cancelled` has `status = cancelled`.  (The side condition
on `confirmOrder` is forced by the counterexample.) -/
theorem shipCancel_invariant_preserved (s : List Order) (ops : List Op)
    (h0 : StateInv s) (hok : okTrace s ops) : StateInv (runOps s ops) := by
  induction ops generalizing s with
  | nil => exact h0
  | cons op rest ih => exact ih (runOp s op) (StateInv_runOp h0 hok.1) hok.2

/-- C2 (witness): the amended theorem on a concrete trace — create an
order, confirm it (its shipping status is `awaiting_confirmation`, not
cancelled), then cancel it. -/
theorem shipCancel_invariant_preserved_witness :
    StateInv (runOps []
      [Op.create none (some (str "a@b.c")) (some [c2Item]) none false
        (str "o1") 10,
       Op.confirm (str "o1") (str "admin") (str "t2") 11,
       Op.cancel (str "o1") [] (str "t3") 12]) :=
  shipCancel_invariant_preserved []
    [Op.create none (some (str "a@b.c")) (some [c2Item]) none false
      (str "o1") 10,
     Op.confirm (str "o1") (str "admin") (str "t2") 11,
     Op.cancel (str "o1") [] (str "t3") 12]
    (by intro o ho; cases ho)
    ⟨trivial,
     by
       show ∀ o ∈ loadSaved (str "t2") 11
           (runOp [] (Op.create none (some (str "a@b.c")) (some [c2Item])
             none false (str "o1") 10)),
         o.id = str "o1" →
           o.shipping_status ≠ SHIPPING_STATUSES.CANCELLED
       decide,
     trivial, trivial⟩


/- ### Inventory lemmas (C8 / C9) -/

theorem toValidStock_ofNat (n : Nat) (c : JStr) :
    toValidStock (some (Jq.ofNat n)) c = n := by
  show (if (Jq.ofNat n).nonneg then (Jq.ofNat n).floor.toNat
    else stockDefault c) = n
  rw [if_pos (show (Jq.ofNat n).nonneg by
    show (0 : Int) ≤ (n : Int)
    omega)]
  rw [Jq.floor_ofNat]
  omega

theorem withSeedImage_id (seedImage : JStr → Option JStr) (r : RawProduct) :
    (withSeedImage seedImage r).id = r.id := by
  unfold withSeedImage
  cases seedImage r.id <;> rfl

theorem withSeedImage_stock (seedImage : JStr → Option JStr)
    (r : RawProduct) : (withSeedImage seedImage r).stock = r.stock := by
  unfold withSeedImage
  cases seedImage r.id <;> rfl

theorem withSeedImage_category (seedImage : JStr → Option JStr)
    (r : RawProduct) : (withSeedImage seedImage r).category = r.category := by
  unfold withSeedImage
  cases seedImage r.id <;> rfl

theorem mem_sanitizeProducts {seedImage : JStr → Option JStr}
    {raws : List RawProduct} {q : Product} :
    q ∈ sanitizeProducts seedImage raws ↔
      (∃ r ∈ raws, q = withNormalizedStock (withSeedImage seedImage r)) ∧
        isVisibleProduct q = true := by
  unfold sanitizeProducts
  rw [List.mem_filter, List.mem_map]
  constructor
  · rintro ⟨⟨r, hr, rfl⟩, hv⟩
    exact ⟨⟨r, hr, rfl⟩, hv⟩
  · rintro ⟨⟨r, hr, rfl⟩, hv⟩
    exact ⟨⟨r, hr, rfl⟩, hv⟩

/-- Components of `isVisibleProduct`. -/
theorem isVisibleProduct_eq_true {p : Product} :
    isVisibleProduct p = true ↔
      ((jsTrim p.id).isEmpty = false ∧ p.id ∉ REMOVED_PRODUCT_IDS ∧
        (jsTrim p.image).isEmpty = false) := by
  unfold isVisibleProduct hasImage
  simp [Bool.and_eq_true, and_assoc]

/-- What a stock-patching pass through `sanitizeProducts` does: with a
unique visible product matching on id, the matching output's stock is
exactly the patched value, the product survives the pass, and non-matching
products pass their stock through unchanged. -/
theorem stock_patch_spec (seedImage : JStr → Option JStr)
    (state : List Product) (pid : JStr) (p : Product) (K : Nat)
    (g : Product → RawProduct)
    (hSeed : ∀ i im, seedImage i = some im → hasImage im = true)
    (hvis : ∀ q ∈ state, isVisibleProduct q = true)
    (hp : p ∈ state) (hpid : p.id = pid)
    (hgmatch : ∀ x ∈ state, x.id = pid →
      g x = { x.toRaw with stock := some (Jq.ofNat K) })
    (hgelse : ∀ x ∈ state, x.id ≠ pid → g x = x.toRaw) :
    (∀ q ∈ sanitizeProducts seedImage (state.map g), q.id = pid →
      q.stock = K) ∧
    (∃ q ∈ sanitizeProducts seedImage (state.map g), q.id = pid) := by
  constructor
  · intro q hq hqid
    obtain ⟨⟨r, hr, rfl⟩, _⟩ := mem_sanitizeProducts.mp hq
    obtain ⟨x, hx, rfl⟩ := List.mem_map.mp hr
    by_cases hxid : x.id = pid
    · rw [hgmatch x hx hxid]
      show toValidStock (withSeedImage seedImage
        { x.toRaw with stock := some (Jq.ofNat K) }).stock
        (withSeedImage seedImage
          { x.toRaw with stock := some (Jq.ofNat K) }).category = K
      rw [withSeedImage_stock, withSeedImage_category]
      exact toValidStock_ofNat K _
    · exfalso
      apply hxid
      have : (withNormalizedStock (withSeedImage seedImage (g x))).id =
          x.id := by
        rw [hgelse x hx hxid]
        show (withSeedImage seedImage x.toRaw).id = x.id
        rw [withSeedImage_id]
        rfl
      rw [← this]
      exact hqid
  · refine ⟨withNormalizedStock (withSeedImage seedImage (g p)), ?_, ?_⟩
    · rw [mem_sanitizeProducts]
      refine ⟨⟨g p, List.mem_map.mpr ⟨p, hp, rfl⟩, rfl⟩, ?_⟩
      have hgp : g p = { p.toRaw with stock := some (Jq.ofNat K) } :=
        hgmatch p hp hpid
      have hvp := isVisibleProduct_eq_true.mp (hvis p hp)
      rw [isVisibleProduct_eq_true]
      have hid : (withNormalizedStock (withSeedImage seedImage (g p))).id =
          p.id := by
        rw [hgp]
        show (withSeedImage seedImage _).id = p.id
        rw [withSeedImage_id]
        rfl
      refine ⟨by rw [hid]; exact hvp.1, by rw [hid]; exact hvp.2.1, ?_⟩
      rw [hgp]
      show (jsTrim (withSeedImage seedImage
        { p.toRaw with stock := some (Jq.ofNat K) }).image).isEmpty = false
      unfold withSeedImage
      cases hsi : seedImage p.toRaw.id with
      | some im =>
        have := hSeed _ _ hsi
        unfold hasImage at this
        simpa using this
      | none =>
        show (jsTrim p.image).isEmpty = false
        exact hvp.2.2
    · have hgp : g p = { p.toRaw with stock := some (Jq.ofNat K) } :=
        hgmatch p hp hpid
      rw [hgp]
      show (withSeedImage seedImage _).id = pid
      rw [withSeedImage_id]
      exact hpid


/-- C9: for a (unique, visible) catalog product and every finite delta of
any sign and magnitude, `adjustStock` sets that product's stock to
`max(0, ⌊current + delta⌋)` and keeps the product in the catalog; and every
stock in the resulting catalog — for any delta, finite or not — is
non-negative.  (`adjustStock` is a total function: it never throws.) -/
theorem adjustStock_spec (seedImage : JStr → Option JStr)
    (state : List Product) (pid : JStr) (p : Product) (d : Jq)
    (hSeed : ∀ i im, seedImage i = some im → hasImage im = true)
    (hvis : ∀ q ∈ state, isVisibleProduct q = true)
    (hp : p ∈ state) (hpid : p.id = pid)
    (huniq : ∀ q ∈ state, q.id = pid → q = p) :
    (∀ q ∈ adjustStock seedImage state pid (some d), q.id = pid →
      (q.stock : Int) = max 0 ⌊(p.stock : ℚ) + d.toRat⌋) ∧
    (∃ q ∈ adjustStock seedImage state pid (some d), q.id = pid) ∧
    (∀ delta : JNum, ∀ q ∈ adjustStock seedImage state pid delta,
      0 ≤ (q.stock : Int)) := by
  have hbridge : ((Jq.ofNat p.stock).add d).floor =
      ⌊(p.stock : ℚ) + d.toRat⌋ := by
    rw [Jq.floor_toRat, Jq.toRat_add, Jq.toRat_ofNat]
  set K := (max 0 ((Jq.ofNat p.stock).add d).floor).toNat with hK
  have hKcast : (K : Int) = max 0 ((Jq.ofNat p.stock).add d).floor :=
    Int.toNat_of_nonneg (le_max_left 0 _)
  have hunfold : adjustStock seedImage state pid (some d) =
      sanitizeProducts seedImage (state.map (fun item =>
        if item.id = pid then
          { item.toRaw with stock := some (Jq.ofNat
              (max 0 ((Jq.ofNat item.stock).add d).floor).toNat) }
        else item.toRaw)) := rfl
  have hps := stock_patch_spec seedImage state pid p K
    (fun item =>
      if item.id = pid then
        { item.toRaw with stock := some (Jq.ofNat
            (max 0 ((Jq.ofNat item.stock).add d).floor).toNat) }
      else item.toRaw)
    hSeed hvis hp hpid
    (fun x hx hxid => by
      show (if x.id = pid then
        { x.toRaw with stock := some (Jq.ofNat
            (max 0 ((Jq.ofNat x.stock).add d).floor).toNat) }
        else x.toRaw) = { x.toRaw with stock := some (Jq.ofNat K) }
      rw [if_pos hxid, huniq x hx hxid, hK])
    (fun x _ hxid => by
      show (if x.id = pid then
        { x.toRaw with stock := some (Jq.ofNat
            (max 0 ((Jq.ofNat x.stock).add d).floor).toNat) }
        else x.toRaw) = x.toRaw
      rw [if_neg hxid])
  refine ⟨fun q hq hqid => ?_, ?_,
    fun delta q _ => Int.natCast_nonneg q.stock⟩
  · rw [hunfold] at hq
    rw [hps.1 q hq hqid, hKcast, hbridge]
  · rw [hunfold]
    exact hps.2

/-- The catalog product used by the C9 witness. -/
def catalogProduct9 : Product :=
  { id := str "p1", name := str "Camera", category := str "Cameras",
    price := some (Jq.ofNat 100), stock := 5, image := str "img" }

/-- C9 (witness): the theorem at stock 5 and delta −100 (the clamp produces
0). -/
theorem adjustStock_spec_witness :
    (∀ q ∈ adjustStock (fun _ => none) [catalogProduct9] (str "p1")
        (some (Jq.ofInt (-100))), q.id = str "p1" →
      (q.stock : Int) =
        max 0 ⌊(catalogProduct9.stock : ℚ) + (Jq.ofInt (-100)).toRat⌋) ∧
    (∃ q ∈ adjustStock (fun _ => none) [catalogProduct9] (str "p1")
        (some (Jq.ofInt (-100))), q.id = str "p1") ∧
    (∀ delta : JNum, ∀ q ∈ adjustStock (fun _ => none) [catalogProduct9]
        (str "p1") delta, 0 ≤ (q.stock : Int)) :=
  adjustStock_spec (fun _ => none) [catalogProduct9] (str "p1")
    catalogProduct9 (Jq.ofInt (-100)) (fun _ _ h => nomatch h) (by decide)
    (by decide) (by decide) (by decide)

/-- C8 (amended): for a (visible) catalog product, saving an absolute stock
value stores `max(0, ⌊value⌋)` (which equals `⌊value⌋`) only when the value
is finite and `≥ 0`; a negative or non-finite value is rejected and the
whole catalog — in particular the stored stock — is unchanged (it does not
fall back to 0). -/
theorem handleStockSave_spec (seedImage : JStr → Option JStr)
    (state : List Product) (pid : JStr) (p : Product)
    (hSeed : ∀ i im, seedImage i = some im → hasImage im = true)
    (hvis : ∀ q ∈ state, isVisibleProduct q = true)
    (hp : p ∈ state) (hpid : p.id = pid) :
    (∀ v : Jq, v.nonneg →
      (∀ q ∈ handleStockSave seedImage state pid (some v), q.id = pid →
        (q.stock : Int) = max 0 ⌊v.toRat⌋) ∧
      ∃ q ∈ handleStockSave seedImage state pid (some v), q.id = pid) ∧
    (∀ v : Jq, ¬ v.nonneg →
      handleStockSave seedImage state pid (some v) = state) ∧
    handleStockSave seedImage state pid none = state := by
  refine ⟨fun v hv => ?_, fun v hv => ?_, rfl⟩
  · have hunfold : handleStockSave seedImage state pid (some v) =
        updateProductStock seedImage state pid v.floor.toNat := by
      show (if v.nonneg then
        updateProductStock seedImage state pid v.floor.toNat else state) = _
      rw [if_pos hv]
    have h0 : (0 : Int) ≤ ⌊v.toRat⌋ :=
      Int.floor_nonneg.mpr ((Jq.nonneg_iff_toRat v).mp hv)
    have hfl : ((v.floor.toNat : Nat) : Int) = max 0 ⌊v.toRat⌋ := by
      rw [Jq.floor_toRat, Int.toNat_of_nonneg h0]
      omega
    have hupd : updateProductStock seedImage state pid v.floor.toNat =
        sanitizeProducts seedImage (state.map (fun item =>
          if item.id = pid then
            { item.toRaw with stock := some (Jq.ofNat v.floor.toNat) }
          else item.toRaw)) := rfl
    have hps := stock_patch_spec seedImage state pid p v.floor.toNat
      (fun item =>
        if item.id = pid then
          { item.toRaw with stock := some (Jq.ofNat v.floor.toNat) }
        else item.toRaw)
      hSeed hvis hp hpid
      (fun x _ hxid => by
        show (if x.id = pid then
          { x.toRaw with stock := some (Jq.ofNat v.floor.toNat) }
          else x.toRaw) =
            { x.toRaw with stock := some (Jq.ofNat v.floor.toNat) }
        rw [if_pos hxid])
      (fun x _ hxid => by
        show (if x.id = pid then
          { x.toRaw with stock := some (Jq.ofNat v.floor.toNat) }
          else x.toRaw) = x.toRaw
        rw [if_neg hxid])
    constructor
    · intro q hq hqid
      rw [hunfold, hupd] at hq
      rw [hps.1 q hq hqid, hfl]
    · rw [hunfold, hupd]
      exact hps.2
  · show (if v.nonneg then
      updateProductStock seedImage state pid v.floor.toNat else state) = state
    rw [if_neg hv]

/-- C8 (witness): the amended theorem at value 7/2 (stores 3) and at −2 /
non-finite (no-ops). -/
theorem handleStockSave_spec_witness :
    ((∀ q ∈ handleStockSave (fun _ => none) [storedProduct8] (str "p1")
        (some (⟨7, 1⟩ : Jq)), q.id = str "p1" →
      (q.stock : Int) = max 0 ⌊(⟨7, 1⟩ : Jq).toRat⌋) ∧
      ∃ q ∈ handleStockSave (fun _ => none) [storedProduct8] (str "p1")
        (some (⟨7, 1⟩ : Jq)), q.id = str "p1") ∧
    handleStockSave (fun _ => none) [storedProduct8] (str "p1")
      (some (Jq.ofInt (-2))) = [storedProduct8] :=
  ⟨(handleStockSave_spec (fun _ => none) [storedProduct8] (str "p1")
      storedProduct8 (fun _ _ h => nomatch h) (by decide) (by decide)
      (by decide)).1 (⟨7, 1⟩ : Jq) (by decide),
   (handleStockSave_spec (fun _ => none) [storedProduct8] (str "p1")
      storedProduct8 (fun _ _ h => nomatch h) (by decide) (by decide)
      (by decide)).2.1 (Jq.ofInt (-2)) (by decide)⟩


/-- C3: if any cart line's quantity exceeds the current catalog stock,
`handlePlaceOrder` fails with the structured Insufficient Stock error naming
the offending products, no order is created (the order repository is
unchanged) and no inventory is mutated (the products state is unchanged);
the offending-line list is non-empty. -/
theorem handlePlaceOrder_insufficient (seedImage : JStr → Option JStr)
    (fresh : JStr) (now : Nat) (cart : List CartItem)
    (products : List Product) (auth : AuthState) (persisted : List Order)
    (subtotal : JNum) (autoConfirm : Bool)
    (hne : cart ≠ [])
    (hauth : auth.isAuthenticated = true ∧ auth.email ≠ none ∧
      auth.email ≠ some [])
    (hbad : ∃ item ∈ cart, getCurrentStock products item < item.quantity) :
    handlePlaceOrder seedImage fresh now cart products auth persisted
        subtotal autoConfirm =
      { checkoutError := some (str "Insufficient stock for: " ++
          List.intercalate (str ", ")
            ((cart.filter (fun item =>
              decide (getCurrentStock products item < item.quantity))).map
              (fun item => item.name)) ++
          str ". Please adjust cart quantity and try again."),
        placedOrder := none, orders := persisted, products := products } ∧
    (cart.filter (fun item =>
      decide (getCurrentStock products item < item.quantity))) ≠ [] := by
  have hfilter : (cart.filter (fun item =>
      decide (getCurrentStock products item < item.quantity))) ≠ [] := by
    obtain ⟨it, hin, hlt⟩ := hbad
    intro hcon
    have hmem : it ∈ cart.filter (fun item =>
        decide (getCurrentStock products item < item.quantity)) :=
      List.mem_filter.mpr ⟨hin, by simpa using hlt⟩
    rw [hcon] at hmem
    cases hmem
  have h1 : cart.isEmpty = false := by
    simpa [List.isEmpty_iff] using hne
  have h2 : (¬(auth.isAuthenticated = true ∧ auth.email ≠ none ∧
      auth.email ≠ some [])) = False := eq_false (not_not_intro hauth)
  have h3 : (cart.filter (fun item =>
      decide (getCurrentStock products item < item.quantity))).isEmpty =
        false := by
    simpa [List.isEmpty_iff] using hfilter
  refine ⟨?_, hfilter⟩
  simp [handlePlaceOrder, h1, h2, h3]


/-- Scenario F cart line: quantity 5 against catalog stock 3. -/
def cartItemF : CartItem :=
  { id := str "p1", name := str "Camera", price := some (Jq.ofNat 100),
    quantity := 5, stock := some (Jq.ofNat 3), image := str "img",
    category := str "Cameras" }

/-- Scenario F catalog product with stock 3. -/
def productF : Product :=
  { id := str "p1", name := str "Camera", category := str "Cameras",
    price := some (Jq.ofNat 100), stock := 3, image := str "img" }

/-- Scenario F authenticated customer. -/
def authF : AuthState :=
  { isAuthenticated := true, email := some (str "a@b.c"), userId := none }

/-- C3 (witness): Scenario F — quantity 5 against stock 3 fails with the
Insufficient Stock error naming the product, creates no order, and leaves
the stock at 3. -/
theorem handlePlaceOrder_insufficient_witness :
    handlePlaceOrder (fun _ => none) (str "f") 0 [cartItemF] [productF]
        authF [] none true =
      { checkoutError := some (str "Insufficient stock for: " ++
          List.intercalate (str ", ")
            (([cartItemF].filter (fun item =>
              decide (getCurrentStock [productF] item < item.quantity))).map
              (fun item => item.name)) ++
          str ". Please adjust cart quantity and try again."),
        placedOrder := none, orders := [], products := [productF] } ∧
    ([cartItemF].filter (fun item =>
      decide (getCurrentStock [productF] item < item.quantity))) ≠ [] :=
  handlePlaceOrder_insufficient (fun _ => none) (str "f") 0 [cartItemF]
    [productF] authF [] none true (by decide) (by decide) (by decide)


/- ### Idempotence of normalization (C4) -/

theorem safeInteger_ofNat (n : Nat) (fb : Jq) :
    safeInteger (some (Jq.ofNat n)) fb = n := by
  unfold safeInteger safeNumber
  simp only [Option.getD_some, Jq.floor_ofNat]
  omega

theorem normalizeStatus_idem (s : Option JStr) :
    normalizeStatus (some (normalizeStatus s)) = normalizeStatus s := by
  cases s with
  | none => decide
  | some t =>
    by_cases h1 : jsToUpper t = str "PENDING"
    · have hv : normalizeStatus (some t) = ORDER_STATUSES.PENDING := by
        show (if jsToUpper t = str "PENDING" then ORDER_STATUSES.PENDING
          else if jsToUpper t = str "CONFIRMED" then ORDER_STATUSES.CONFIRMED
          else if jsToUpper t = str "CANCELLED" then ORDER_STATUSES.CANCELLED
          else t) = ORDER_STATUSES.PENDING
        rw [if_pos h1]
      rw [hv]
      decide
    · by_cases h2 : jsToUpper t = str "CONFIRMED"
      · have hv : normalizeStatus (some t) = ORDER_STATUSES.CONFIRMED := by
          show (if jsToUpper t = str "PENDING" then ORDER_STATUSES.PENDING
            else if jsToUpper t = str "CONFIRMED" then ORDER_STATUSES.CONFIRMED
            else if jsToUpper t = str "CANCELLED" then ORDER_STATUSES.CANCELLED
            else t) = ORDER_STATUSES.CONFIRMED
          rw [if_neg h1, if_pos h2]
        rw [hv]
        decide
      · by_cases h3 : jsToUpper t = str "CANCELLED"
        · have hv : normalizeStatus (some t) = ORDER_STATUSES.CANCELLED := by
            show (if jsToUpper t = str "PENDING" then ORDER_STATUSES.PENDING
              else if jsToUpper t = str "CONFIRMED" then
                ORDER_STATUSES.CONFIRMED
              else if jsToUpper t = str "CANCELLED" then
                ORDER_STATUSES.CANCELLED
              else t) = ORDER_STATUSES.CANCELLED
            rw [if_neg h1, if_neg h2, if_pos h3]
          rw [hv]
          decide
        · have hv : normalizeStatus (some t) = t := by
            show (if jsToUpper t = str "PENDING" then ORDER_STATUSES.PENDING
              else if jsToUpper t = str "CONFIRMED" then
                ORDER_STATUSES.CONFIRMED
              else if jsToUpper t = str "CANCELLED" then
                ORDER_STATUSES.CANCELLED
              else t) = t
            rw [if_neg h1, if_neg h2, if_neg h3]
          rw [hv, hv]

theorem normalizeShippingStatus_idem (s : Option JStr) :
    normalizeShippingStatus (some (normalizeShippingStatus s)) =
      normalizeShippingStatus s :=
  normalizeShippingStatus_fix (normalizeShippingStatus_mem s)

theorem normalizeTimelineEntry_idem (f : JStr) (n : Nat) (f' : JStr)
    (n' : Nat) (e : RawTimelineEntry) :
    normalizeTimelineEntry f' n' ((normalizeTimelineEntry f n e).toRaw) =
      normalizeTimelineEntry f n e := by
  unfold normalizeTimelineEntry TimelineEntry.toRaw
  simp only [Option.getD_some, TimelineEntry.mk.injEq]
  refine ⟨trivial, trivial, ?_⟩
  by_cases hme : jsTrim ((e.message).getD []) = []
  · rw [if_pos hme]
    decide
  · rw [if_neg hme]
    have hfix : jsTrim (jsTrim ((e.message).getD [])) =
        jsTrim ((e.message).getD []) := jsTrim_idem _
    rw [hfix, if_neg hme]

theorem sanitizeItem_toRaw {i : OrderItem} (hq : 1 ≤ i.quantity) :
    sanitizeItem i.toRaw = i := by
  show OrderItem.mk i.product_id i.product_name
    (safeInteger (some (Jq.ofNat i.unit_price)) 0)
    (max 1 (safeInteger (some (Jq.ofNat i.quantity)) 1))
    i.image i.category = i
  rw [safeInteger_ofNat, safeInteger_ofNat]
  have hmax : max 1 i.quantity = i.quantity := by omega
  rw [hmax]


theorem mem_sanitizeOrderItems_props {x : Option (List RawItem)}
    {i : OrderItem} (h : i ∈ sanitizeOrderItems x) :
    1 ≤ i.quantity ∧ i.product_id ≠ [] := by
  unfold sanitizeOrderItems at h
  obtain ⟨hmem, hpid⟩ := List.mem_filter.mp h
  constructor
  · obtain ⟨r, _, rfl⟩ := List.mem_map.mp hmem
    exact le_max_left 1 _
  · simpa [List.isEmpty_iff] using hpid

theorem sanitizeOrderItems_idem (x : Option (List RawItem)) :
    sanitizeOrderItems (some ((sanitizeOrderItems x).map OrderItem.toRaw)) =
      sanitizeOrderItems x := by
  have hmap : ((sanitizeOrderItems x).map OrderItem.toRaw).map sanitizeItem =
      sanitizeOrderItems x := by
    rw [List.map_map]
    calc ((sanitizeOrderItems x).map (sanitizeItem ∘ OrderItem.toRaw)) =
        (sanitizeOrderItems x).map id :=
          List.map_congr_left (fun i hi =>
            sanitizeItem_toRaw (mem_sanitizeOrderItems_props hi).1)
      _ = sanitizeOrderItems x := List.map_id _
  show (((some ((sanitizeOrderItems x).map OrderItem.toRaw)).getD []).map
      sanitizeItem).filter (fun item => !item.product_id.isEmpty) =
    sanitizeOrderItems x
  rw [Option.getD_some, hmap]
  apply List.filter_eq_self.mpr
  intro i hi
  have hne := (mem_sanitizeOrderItems_props hi).2
  simpa [List.isEmpty_iff] using hne

theorem normalizeOrder_toRaw (f : JStr) (n : Nat) (f' : JStr) (n' : Nat)
    (r : RawOrder) :
    normalizeOrder f' n' ((normalizeOrder f n r).toRaw) =
      normalizeOrder f n r := by
  ext : 1
  case id => rfl
  case user_id => rfl
  case user_email =>
    show jsEmailNorm (jsEmailNorm ((r.user_email).getD [])) =
      jsEmailNorm ((r.user_email).getD [])
    exact jsEmailNorm_idem _
  case status => exact normalizeStatus_idem r.status
  case shipping_status => exact normalizeShippingStatus_idem r.shipping_status
  case subtotal => exact safeInteger_ofNat _ _
  case created_at => rfl
  case updated_at => rfl
  case confirmed_at => rfl
  case items => exact sanitizeOrderItems_idem r.items
  case timeline =>
    show ((((r.timeline).getD []).map (normalizeTimelineEntry f n)).map
        TimelineEntry.toRaw).map (normalizeTimelineEntry f' n') =
      ((r.timeline).getD []).map (normalizeTimelineEntry f n)
    rw [List.map_map, List.map_map]
    exact List.map_congr_left (fun e _ =>
      normalizeTimelineEntry_idem f n f' n' e)

/-- The descending-recency order used by `sortByNewest`. -/
def newestLE (a b : Order) : Prop := b.created_at ≤ a.created_at

theorem insertByNewest_pairwise {o : Order} {l : List Order}
    (h : l.Pairwise newestLE) : (insertByNewest o l).Pairwise newestLE := by
  induction l with
  | nil => simp [insertByNewest]
  | cons a t ih =>
    rw [List.pairwise_cons] at h
    show (if a.created_at ≤ o.created_at then o :: a :: t
      else a :: insertByNewest o t).Pairwise newestLE
    by_cases hc : a.created_at ≤ o.created_at
    · rw [if_pos hc, List.pairwise_cons]
      refine ⟨fun x hx => ?_, List.pairwise_cons.mpr ⟨h.1, h.2⟩⟩
      rcases List.mem_cons.mp hx with rfl | hx'
      · exact hc
      · exact le_trans (h.1 x hx') hc
    · rw [if_neg hc, List.pairwise_cons]
      refine ⟨fun x hx => ?_, ih h.2⟩
      rcases mem_insertByNewest.mp hx with rfl | hx'
      · exact Nat.le_of_lt (Nat.lt_of_not_le hc)
      · exact h.1 x hx'

theorem sortByNewest_pairwise (l : List Order) :
    (sortByNewest l).Pairwise newestLE := by
  induction l with
  | nil => simp [sortByNewest]
  | cons a t ih => exact insertByNewest_pairwise ih

theorem sortByNewest_of_pairwise {l : List Order}
    (h : l.Pairwise newestLE) : sortByNewest l = l := by
  induction l with
  | nil => rfl
  | cons a t ih =>
    rw [List.pairwise_cons] at h
    show insertByNewest a (sortByNewest t) = a :: t
    rw [ih h.2]
    cases t with
    | nil => rfl
    | cons b u =>
      show (if b.created_at ≤ a.created_at then a :: b :: u
        else b :: insertByNewest a u) = a :: b :: u
      rw [if_pos (show b.created_at ≤ a.created_at from h.1 b (by simp))]

/-- C4: normalizing an already-normalized order is the identity transform —
field for field, whatever fresh ids/timestamps the second pass would have
used — and consequently `saveAll(loadAll())` persists a state equal to the
loaded (normalized, newest-first) state. -/
theorem normalization_idempotent :
    (∀ (f : JStr) (n : Nat) (f' : JStr) (n' : Nat) (r : RawOrder),
      normalizeOrder f' n' ((normalizeOrder f n r).toRaw) =
        normalizeOrder f n r) ∧
    (∀ (f : JStr) (n : Nat) (f' : JStr) (n' : Nat)
      (stored : List RawOrder),
      saveOrders f' n' (loadOrders f n stored) = loadOrders f n stored) := by
  refine ⟨normalizeOrder_toRaw, fun f n f' n' stored => ?_⟩
  unfold saveOrders loadOrders
  have hmap : (sortByNewest (stored.map (normalizeOrder f n))).map
      (fun o => normalizeOrder f' n' o.toRaw) =
        sortByNewest (stored.map (normalizeOrder f n)) := by
    have hall : ∀ x ∈ sortByNewest (stored.map (normalizeOrder f n)),
        normalizeOrder f' n' x.toRaw = x := by
      intro x hx
      rw [mem_sortByNewest] at hx
      obtain ⟨r, _, rfl⟩ := List.mem_map.mp hx
      exact normalizeOrder_toRaw f n f' n' r
    exact (List.map_congr_left hall).trans (List.map_id _)
  rw [hmap, sortByNewest_of_pairwise (sortByNewest_pairwise _)]

end Pixora
